import Mathlib

/-!
# logmsg: a shallow embedding of the debug log facility

Sources embedded here: `Library/src/logmsg.c` and the macros of
`Interface/include/logmsg.h`.

Conventions.

* A C `char` is a `Char`; `NUL` is the terminator.  A C string held in memory is
  the list of its characters before the terminating NUL, so `strlen` is the
  length of that list.
* `size_t` values are naturals reduced modulo `2 ^ 64`; `ssize_t` and `int`
  values are integers.  Mixed comparisons convert the signed side with `size_t`,
  as C does.
* Everything the operating system or libc decides (clock, calendar conversion,
  host name, ids, the formatted text of the caller's message, whether `malloc`
  succeeds, what `write` reports) is read from an `Env`.
* A store outside the object it targets is undefined behaviour; the operation
  then yields `none`.
-/

namespace Logmsg

/-! ## Characters, strings and machine integers -/

/-- The terminating character of a C string. -/
def NUL : Char := Char.ofNat 0

/-- One more than `SIZE_MAX` on the 64 bit targets of the library. -/
def SIZE_MOD : Nat := 2 ^ 64

/-- Largest value of a C `int`. -/
def INT_MAX : Int := 2 ^ 31 - 1

/-- Conversion of a signed value to `size_t`. -/
def size_t (i : Int) : Nat := (i % (SIZE_MOD : Int)).toNat

/-- Conversion of a `long` to `pid_t`, a 32 bit signed integer. -/
def pid_t (v : Int) : Int := (v + 2 ^ 31) % 2 ^ 32 - 2 ^ 31

/-- libc `strlen` of a C string. -/
def strlen (s : List Char) : Nat := s.length

/-- The `n` bytes that `strncpy(dst, src, n)` stores at `dst`: the characters of
`src`, cut at `n`, then NUL padding up to `n` bytes. -/
def strncpy_bytes (src : List Char) (n : Nat) : List Char :=
  src.take n ++ List.replicate (n - src.length) NUL

/-- Read `n` bytes of `buf` from offset `off` on.  The read is undefined when it
does not lie inside the buffer. -/
def peek (buf : List Char) (off n : Nat) : Option (List Char) :=
  if off + n ≤ buf.length then some ((buf.drop off).take n) else none

/-- Store `data` into `buf` from offset `off` on.  The store is undefined when
it does not lie inside the buffer. -/
def poke (buf : List Char) (off : Nat) (data : List Char) : Option (List Char) :=
  if off + data.length ≤ buf.length then
    some (buf.take off ++ data ++ buf.drop (off + data.length))
  else
    none

/-- `strncpy` of a literal into a local array of `cap` bytes which is afterwards
read as a C string: defined when the `n` bytes fit and include the terminator;
the array then holds `src`. -/
def strncpy_local (cap : Nat) (src : List Char) (n : Nat) : Option (List Char) :=
  if n ≤ cap ∧ src.length < n then some src else none

/-! ## Decimal conversions of libc -/

/-- The character of a decimal digit. -/
def digit (d : Nat) : Char := Char.ofNat (48 + d % 10)

/-- Digits of `n`, most significant first, in front of `acc`. -/
def utoa_loop : Nat → Nat → List Char → List Char
  | 0, _, acc => acc
  | fuel + 1, n, acc =>
    if n < 10 then digit n :: acc
    else utoa_loop fuel (n / 10) (digit n :: acc)

/-- Conversion `%u` / `%lu`: the decimal digits of `n`, no padding. -/
def utoa (n : Nat) : List Char := utoa_loop (n + 1) n []

/-- Conversion `%d`. -/
def itoa (i : Int) : List Char :=
  if i < 0 then '-' :: utoa (-i).toNat else utoa i.toNat

/-- Left padding with `'0'` up to `width` characters. -/
def zero_pad (width : Nat) (s : List Char) : List Char :=
  List.replicate (width - s.length) '0' ++ s

/-- A numeric field of `strftime` with a minimum number of digits; the sign of a
negative value counts in the width. -/
def strftime_number (digits : Nat) (v : Int) : List Char :=
  if v < 0 then '-' :: zero_pad (digits - 1) (utoa (-v).toNat)
  else zero_pad digits (utoa v.toNat)

/-! ## The environment of a call -/

/-- The broken-down time `struct tm`, restricted to the members the format
`%Y-%m-%d-%T` reads. -/
structure Tm where
  tm_year : Int
  tm_mon : Int
  tm_mday : Int
  tm_hour : Int
  tm_min : Int
  tm_sec : Int
deriving DecidableEq, Repr

/-- An argument of a printf style call. -/
inductive Arg where
  | str (s : List Char)
  | int (i : Int)
  | dbl (bits : Nat)
deriving DecidableEq, Repr

/-- The answers of the operating system and of libc during one call. -/
structure Env where
  /-- Result of `clock_gettime(CLOCK_REALTIME, ..)`: `none` for a negative status,
  else `tv_sec` and `tv_nsec`. -/
  clock_gettime : Option (Int × Int)
  /-- Result of `gmtime_r`; `none` stands for `NULL`. -/
  gmtime_r : Int → Option Tm
  /-- Result of `gethostname(buf, len)`: the status and the C string left in `buf`. -/
  gethostname : Nat → Int × List Char
  /-- Result of `getpid()`; the variable that receives it has type `pid_t`. -/
  getpid : Int
  /-- Result of `syscall(SYS_gettid)`, a `long` which the source casts to `pid_t`. -/
  gettid : Int
  /-- Whether `snprintf` reports an output error for the `%d:%d` conversion. -/
  snprintf_error : Bool
  /-- The global `program_invocation_short_name`. -/
  program_invocation_short_name : List Char
  /-- The bytes a format and its arguments expand to; `none` when the expansion
  is an error. -/
  format_output : List Char → List Arg → Option (List Char)
  /-- Whether `malloc` returns `NULL`. -/
  malloc_fails : Bool
  /-- Initial content of the bytes of a block returned by `malloc`. -/
  heap_garbage : Nat → Char
  /-- Value returned by `write`. -/
  write : Int

/-! ## libc formatting functions -/

/-- The text of `strftime` for the format `%Y-%m-%d-%T`: the year without
padding, then two digit month, day, hour, minute and second. -/
def strftime_text (tm : Tm) : List Char :=
  itoa (tm.tm_year + 1900) ++ '-' :: strftime_number 2 (tm.tm_mon + 1) ++
    '-' :: strftime_number 2 tm.tm_mday ++ '-' :: strftime_number 2 tm.tm_hour ++
    ':' :: strftime_number 2 tm.tm_min ++ ':' :: strftime_number 2 tm.tm_sec

/-- Model of `strftime(buf, max, "%Y-%m-%d-%T", tm)`: the number of characters
placed in `buf`, terminator excluded, and the C string placed there; `0` when the
text with its terminator exceeds `max` bytes. -/
def strftime (max : Nat) (tm : Tm) : Nat × List Char :=
  if (strftime_text tm).length + 1 ≤ max then
    ((strftime_text tm).length, strftime_text tm)
  else
    (0, [])

/-- The C string `snprintf(buf, size, "-%09lu", nsec)` leaves in `buf`: the
argument is read as an `unsigned long`, and at most `size - 1` characters are
stored before the terminator. -/
def snprintf_09lu (size : Nat) (nsec : Int) : List Char :=
  ('-' :: zero_pad 9 (utoa (size_t nsec))).take (size - 1)

/-- Model of `snprintf(buf, size, "%d:%d", a, b)`: the returned value and the C
string left in `buf`. -/
def snprintf_d_d (error : Bool) (size : Nat) (a b : Int) : Int × List Char :=
  if error then (-1, [])
  else ((itoa a ++ ':' :: itoa b).length, (itoa a ++ ':' :: itoa b).take (size - 1))

/-- Model of `vsnprintf(buf, size, format, ap)`: the returned value and the bytes
stored at `buf`.  The value is negative when the expansion fails or is longer
than `INT_MAX`; nothing is stored when `size` is `0`. -/
def vsnprintf (env : Env) (size : Nat) (format : List Char) (args : List Arg) :
    Int × List Char :=
  match env.format_output format args with
  | none => (-1, [])
  | some text =>
    if (text.length : Int) > INT_MAX then (-1, [])
    else ((text.length : Int), if size = 0 then [] else text.take (size - 1) ++ [NUL])

/-! ## Private functions of `logmsg.c` -/

/-- Source function `get_utc_time(p_buffer, buffer_len)`: the returned value and
the C string in the buffer. -/
def get_utc_time (env : Env) (buffer_len : Nat) : Int × List Char :=
  match env.clock_gettime with
  | none => (-1, [])
  | some (tv_sec, tv_nsec) =>
    match env.gmtime_r tv_sec with
    | none => (-2, [])
    | some gmt_time =>
      let utc_time_len := (strftime buffer_len gmt_time).1
      let buffer := (strftime buffer_len gmt_time).2
      if utc_time_len = 0 then (-3, buffer)
      else if (utc_time_len + 1 + 9) % SIZE_MOD ≥ buffer_len then (-4, buffer)
      else
        (((utc_time_len + (1 + 9)) % SIZE_MOD : Nat),
          buffer.take utc_time_len ++ snprintf_09lu (1 + 9 + 1) tv_nsec)

/-- Source function `get_hostname(p_buffer, buffer_len)`. -/
def get_hostname (env : Env) (buffer_len : Nat) : Int × List Char :=
  if (env.gethostname buffer_len).1 ≠ 0 then (-1, (env.gethostname buffer_len).2)
  else ((strlen (env.gethostname buffer_len).2 : Int), (env.gethostname buffer_len).2)

/-- Source function `get_process_and_thread_ids(p_buffer, buffer_len)`. -/
def get_process_and_thread_ids (env : Env) (buffer_len : Nat) : Int × List Char :=
  let pid := pid_t env.getpid
  let tid := pid_t env.gettid
  let copied_len := (snprintf_d_d env.snprintf_error buffer_len pid tid).1
  let buffer := (snprintf_d_d env.snprintf_error buffer_len pid tid).2
  if copied_len < 0 ∨ size_t copied_len ≥ buffer_len then (-1, buffer)
  else (copied_len, buffer)

/-! ## Process-wide state -/

/-- The enumeration `LOGMSG_LEVEL`; the C type is an `int`. -/
def LOGMSG_LEVEL_NONE : Int := 0
def LOGMSG_LEVEL_FATAL : Int := 1
def LOGMSG_LEVEL_ERROR : Int := 2
def LOGMSG_LEVEL_WARN : Int := 3
def LOGMSG_LEVEL_INFO : Int := 4
def LOGMSG_LEVEL_DEBUG : Int := 5
def LOGMSG_LEVEL_TRACE : Int := 6
def LOGMSG_LEVEL_MIN : Int := 0
def LOGMSG_LEVEL_MAX : Int := 6
def LOGMSG_LEVEL_UNDEFINED : Int := -1

/-- The program-wide variables of `logmsg.c`.  The counters are `uint64_t`. -/
structure LogState where
  logmsg_level : Int
  logger_fd : Int
  num_open_failures : Nat
  num_conn_failures : Nat
  num_write_failures : Nat
deriving DecidableEq, Repr

/-- The values the variables are defined with. -/
def LogState.init : LogState :=
  { logmsg_level := LOGMSG_LEVEL_NONE, logger_fd := -1, num_open_failures := 0,
    num_conn_failures := 0, num_write_failures := 0 }

/-- The operator `++` on a `uint64_t`. -/
def uint64_incr (n : Nat) : Nat := (n + 1) % 2 ^ 64

/-! ## API functions -/

/-- Source function `logmsg_open_file(file_spec)`.  `os_open` is what
`open(file_spec, O_CREAT | O_APPEND | O_WRONLY, mode)` answers: a descriptor, or
`none` for the failure value `-1`.  The result is the new state and the returned
value. -/
def logmsg_open_file (s : LogState) (_file_spec : List Char) (os_open : Option Nat) :
    LogState × Int :=
  if s.logger_fd ≥ 0 then
    ({ s with num_open_failures := uint64_incr s.num_open_failures }, -1)
  else
    let s1 := { s with logger_fd := match os_open with
                                    | some fd => (fd : Int)
                                    | none => -1 }
    if s1.logger_fd < 0 then
      ({ s1 with num_open_failures := uint64_incr s1.num_open_failures }, -1)
    else
      (s1, 0)

/-- Source function `logmsg_open_conn(server_spec)`: the body is a `FIXME`
followed by `return 0`. -/
def logmsg_open_conn (s : LogState) (_server_spec : List Char) : LogState × Int :=
  (s, 0)

/-- The table `text` of `logmsg_level_to_string`. -/
def level_text : List (List Char) :=
  ["NONE".toList, "FATAL".toList, "ERROR".toList, "WARN".toList, "INFO".toList,
   "DEBUG".toList, "TRACE".toList]

/-- Source function `logmsg_level_to_string(level)`. -/
def logmsg_level_to_string (level : Int) : List Char :=
  if level ≥ LOGMSG_LEVEL_MIN ∧ level ≤ LOGMSG_LEVEL_MAX then
    level_text.getD level.toNat []
  else
    "UNDEFINED".toList

/-! ## `logmsg_printf` -/

/-- What a call does to the outside world, in program order. -/
inductive Event where
  /-- A call of `get_utc_time`. -/
  | get_utc_time
  /-- A call of `get_hostname`. -/
  | get_hostname
  /-- A call of `get_process_and_thread_ids`. -/
  | get_process_and_thread_ids
  /-- A call `malloc(size)`. -/
  | malloc (size : Nat)
  /-- A call `write(fd, buf, count)`; `buf` is the `count` bytes read from the buffer. -/
  | write (fd : Int) (buf : List Char) (count : Nat)
  /-- A call of `free` on the allocated entry. -/
  | free
deriving DecidableEq, Repr

/-- Lines 392-407: `utc_time_len` and the string in `utc_time_buf`. -/
def utc_time_block (env : Env) : Option (Int × List Char) :=
  if (get_utc_time env (32 + 1)).1 < 0 then
    (strncpy_local (32 + 1) "**** unknown time ****".toList
        (strlen "**** unknown time ****".toList + 1)).map
      (fun buf => ((strlen "**** unknown time ****".toList : Int), buf))
  else
    some (get_utc_time env (32 + 1))

/-- Lines 421-436: `hostname_len` and the string in `hostname_buf`. -/
def hostname_block (env : Env) : Option (Int × List Char) :=
  if (get_hostname env (64 + 1)).1 < 0 then
    (strncpy_local (64 + 1) "**** unknown hostname ****".toList
        (strlen "**** unknown hostname ****".toList + 1)).map
      (fun buf => ((strlen "**** unknown hostname ****".toList : Int), buf))
  else
    some (get_hostname env (64 + 1))

/-- Lines 451-467: `pid_tid_len` and the string in `pid_tid_buf`. -/
def pid_tid_block (env : Env) : Option (Int × List Char) :=
  if (get_process_and_thread_ids env (32 + 1)).1 < 0 then
    (strncpy_local (32 + 1) "**** unknown pid and tid ****".toList
        (strlen "**** unknown pid and tid ****".toList + 1)).map
      (fun buf => ((strlen "**** unknown pid and tid ****".toList : Int), buf))
  else
    some (get_process_and_thread_ids env (32 + 1))

/-- The literal `format_error_text`. -/
def format_error_text : List Char := "**** message formatting error ****".toList

/-- The literal `malloc_error_text`. -/
def malloc_error_text : List Char := "**** heap memory exhausted ****".toList

/-- Lines 474-493, the measuring pass: `message_len`, and whether `p_message`
was set to `format_error_text` (it is `NULL` otherwise). -/
def message_block (env : Env) (format : List Char) (args : List Arg) : Int × Bool :=
  if (vsnprintf env 0 format args).1 < 0 then ((strlen format_error_text : Int), true)
  else ((vsnprintf env 0 format args).1, false)

/-- Lines 503-515: the sum that defines `log_message_len`, converted to `size_t`. -/
def log_message_len (utc_time_len : Int) (log_level_text_len : Nat) (hostname_len : Int)
    (program_name_len : Nat) (pid_tid_len : Int) (message_len : Int) : Nat :=
  size_t (utc_time_len + 1 + log_level_text_len + 1 + hostname_len + 1 + program_name_len +
    1 + pid_tid_len + 1 + 1 + message_len + 1)

/-- Lines 540-546: the UTC time string and a space.  A block of the assembly
takes and returns the buffer and the offset of `p_write`. -/
def write_utc_time (utc_time_buf : List Char) (utc_time_len : Int) (w : List Char × Nat) :
    Option (List Char × Nat) := do
  let buf ← poke w.1 w.2 (strncpy_bytes utc_time_buf (size_t (utc_time_len + 1)))
  let p_write := w.2 + utc_time_len.toNat
  let buf ← poke buf p_write [' ']
  pure (buf, p_write + 1)

/-- Lines 552-558: the log level text and a space. -/
def write_log_level (log_level_text : List Char) (log_level_text_len : Nat)
    (w : List Char × Nat) : Option (List Char × Nat) := do
  let buf ← poke w.1 w.2 (strncpy_bytes log_level_text ((log_level_text_len + 1) % SIZE_MOD))
  let p_write := w.2 + log_level_text_len
  let buf ← poke buf p_write [' ']
  pure (buf, p_write + 1)

/-- Lines 564-570: the host name and a colon. -/
def write_hostname (hostname_buf : List Char) (hostname_len : Int) (w : List Char × Nat) :
    Option (List Char × Nat) := do
  let buf ← poke w.1 w.2 (strncpy_bytes hostname_buf (size_t (hostname_len + 1)))
  let p_write := w.2 + hostname_len.toNat
  let buf ← poke buf p_write [':']
  pure (buf, p_write + 1)

/-- Lines 576-580: the program name. -/
def write_program_name (program_name : List Char) (program_name_len : Nat)
    (w : List Char × Nat) : Option (List Char × Nat) := do
  let buf ← poke w.1 w.2 (strncpy_bytes program_name ((program_name_len + 1) % SIZE_MOD))
  pure (buf, w.2 + program_name_len)

/-- Lines 586-596: the process and thread ids between brackets, and a space. -/
def write_pid_tid (pid_tid_buf : List Char) (pid_tid_len : Int) (w : List Char × Nat) :
    Option (List Char × Nat) := do
  let buf ← poke w.1 w.2 ['[']
  let p_write := w.2 + 1
  let buf ← poke buf p_write (strncpy_bytes pid_tid_buf (size_t (pid_tid_len + 1)))
  let p_write := p_write + pid_tid_len.toNat
  let buf ← poke buf p_write [']']
  let p_write := p_write + 1
  let buf ← poke buf p_write [' ']
  pure (buf, p_write + 1)

/-- Lines 602-617: the caller's message, formatted a second time unless the
measuring pass chose `format_error_text`, and the newline.  Adding `1` to an
`int` equal to `INT_MAX` is undefined. -/
def write_message (env : Env) (format : List Char) (args : List Arg)
    (p_message_is_error_text : Bool) (message_len : Int) (w : List Char × Nat) :
    Option (List Char × Nat) := do
  let buf ←
    if message_len + 1 > INT_MAX then none
    else if p_message_is_error_text = false then
      poke w.1 w.2 (vsnprintf env (size_t (message_len + 1)) format args).2
    else
      poke w.1 w.2 (strncpy_bytes format_error_text (size_t (message_len + 1)))
  let p_write := w.2 + message_len.toNat
  let buf ← poke buf p_write ['\n']
  pure (buf, p_write + 1)

/-- Lines 532-618: the stores into the allocated buffer, `p_write` starting at
`p_log_message`.  The result is the buffer and the final offset of `p_write`. -/
def assemble (env : Env) (format : List Char) (args : List Arg) (p_log_message : List Char)
    (utc_time_buf : List Char) (utc_time_len : Int)
    (log_level_text : List Char) (log_level_text_len : Nat)
    (hostname_buf : List Char) (hostname_len : Int)
    (program_name : List Char) (program_name_len : Nat)
    (pid_tid_buf : List Char) (pid_tid_len : Int)
    (p_message_is_error_text : Bool) (message_len : Int) : Option (List Char × Nat) :=
  (((((write_utc_time utc_time_buf utc_time_len (p_log_message, 0)).bind
    (write_log_level log_level_text log_level_text_len)).bind
    (write_hostname hostname_buf hostname_len)).bind
    (write_program_name program_name program_name_len)).bind
    (write_pid_tid pid_tid_buf pid_tid_len)).bind
    (write_message env format args p_message_is_error_text message_len)

/-- Lines 624-633: the state after the write block.  The comparison of the
`ssize_t` result with the `size_t` length is done in `size_t`. -/
def write_block (s : LogState) (env : Env) (log_message_len : Nat) : LogState :=
  if s.logger_fd ≥ 0 then
    if size_t env.write ≠ log_message_len then
      { s with num_write_failures := uint64_incr s.num_write_failures }
    else s
  else s

/-- Source function `logmsg_printf(level, format, ...)`: the new state and the
events of the call. -/
def logmsg_printf (s : LogState) (env : Env) (level : Int) (format : List Char)
    (args : List Arg) : Option (LogState × List Event) := do
  let utc ← utc_time_block env
  let log_level_text := logmsg_level_to_string level
  let log_level_text_len := strlen log_level_text
  let host ← hostname_block env
  let program_name := env.program_invocation_short_name
  let program_name_len := strlen program_name
  let ids ← pid_tid_block env
  let message := message_block env format args
  let len := log_message_len utc.1 log_level_text_len host.1 program_name_len ids.1 message.1
  let malloc_size := (len + 1) % SIZE_MOD
  -- allocation, then assembly unless the static text took the place of the buffer
  let entry ←
    (if env.malloc_fails then
      some (malloc_error_text ++ [NUL], strlen malloc_error_text, false)
    else
      (assemble env format args ((List.range malloc_size).map env.heap_garbage)
          utc.2 utc.1 log_level_text log_level_text_len host.2 host.1
          program_name program_name_len ids.2 ids.1 message.2 message.1).map
        (fun r => (r.1, len, true)))
  -- write to the log file if open
  let written ←
    (if s.logger_fd ≥ 0 then
      (peek entry.1 0 entry.2.1).map (fun bytes => [Event.write s.logger_fd bytes entry.2.1])
    else
      some [])
  pure (write_block s env entry.2.1,
    [Event.get_utc_time, Event.get_hostname, Event.get_process_and_thread_ids,
      Event.malloc malloc_size] ++ written ++ (if entry.2.2 then [Event.free] else []))

/-! ## The macros of `logmsg.h` -/

/-- The place of a macro expansion: `__FILE__`, `__LINE__` and `__FUNCTION__`. -/
structure CallSite where
  file : List Char
  line : Int
  function : List Char
deriving DecidableEq, Repr

/-- Macro `LOGMSG_PRINTF(level, format, ...)`. -/
def LOGMSG_PRINTF (site : CallSite) (s : LogState) (env : Env) (level : Int)
    (format : List Char) (args : List Arg) : Option (LogState × List Event) :=
  logmsg_printf s env level ("%s:%d:%s() ".toList ++ format)
    (Arg.str site.file :: Arg.int site.line :: Arg.str site.function :: args)

/-- The body shared by the six macros `LOGMSG_<LEVEL>_PRINTF(format, ...)`, with
`LOGMSG_LEVEL_<LEVEL>` as `level`; without a call the state is kept and nothing
happens. -/
def LOGMSG_LEVEL_PRINTF (level : Int) (site : CallSite) (s : LogState) (env : Env)
    (format : List Char) (args : List Arg) : Option (LogState × List Event) :=
  if s.logmsg_level ≥ level then LOGMSG_PRINTF site s env level format args
  else some (s, [])

/-- Macro `LOGMSG_FATAL_PRINTF`. -/
def LOGMSG_FATAL_PRINTF := LOGMSG_LEVEL_PRINTF LOGMSG_LEVEL_FATAL

/-- Macro `LOGMSG_ERROR_PRINTF`. -/
def LOGMSG_ERROR_PRINTF := LOGMSG_LEVEL_PRINTF LOGMSG_LEVEL_ERROR

/-- Macro `LOGMSG_WARN_PRINTF`. -/
def LOGMSG_WARN_PRINTF := LOGMSG_LEVEL_PRINTF LOGMSG_LEVEL_WARN

/-- Macro `LOGMSG_INFO_PRINTF`. -/
def LOGMSG_INFO_PRINTF := LOGMSG_LEVEL_PRINTF LOGMSG_LEVEL_INFO

/-- Macro `LOGMSG_DEBUG_PRINTF`. -/
def LOGMSG_DEBUG_PRINTF := LOGMSG_LEVEL_PRINTF LOGMSG_LEVEL_DEBUG

/-- Macro `LOGMSG_TRACE_PRINTF`. -/
def LOGMSG_TRACE_PRINTF := LOGMSG_LEVEL_PRINTF LOGMSG_LEVEL_TRACE

/-- The six gated macros, each with the level it is defined for. -/
def gated_macros : List (Int × (CallSite → LogState → Env → List Char → List Arg →
    Option (LogState × List Event))) :=
  [(LOGMSG_LEVEL_FATAL, LOGMSG_FATAL_PRINTF), (LOGMSG_LEVEL_ERROR, LOGMSG_ERROR_PRINTF),
   (LOGMSG_LEVEL_WARN, LOGMSG_WARN_PRINTF), (LOGMSG_LEVEL_INFO, LOGMSG_INFO_PRINTF),
   (LOGMSG_LEVEL_DEBUG, LOGMSG_DEBUG_PRINTF), (LOGMSG_LEVEL_TRACE, LOGMSG_TRACE_PRINTF)]

/-! ## Programs using the library -/

/-- One operation of a client program on the library. -/
inductive Op where
  /-- A call `logmsg_open_file(file_spec)` during which `open` answers `os_open`. -/
  | open_file (file_spec : List Char) (os_open : Option Nat)
  /-- A call `logmsg_open_conn(server_spec)`. -/
  | open_conn (server_spec : List Char)
  /-- A call `logmsg_printf(level, format, ...)` in the environment `env`. -/
  | printf (env : Env) (level : Int) (format : List Char) (args : List Arg)
  /-- An assignment `logmsg_level = level`. -/
  | set_level (level : Int)

/-- The state after one operation and the value it returns, if it returns one. -/
def Op.step (s : LogState) : Op → Option (LogState × Option Int)
  | Op.open_file file_spec os_open =>
    some ((logmsg_open_file s file_spec os_open).1, some (logmsg_open_file s file_spec os_open).2)
  | Op.open_conn server_spec =>
    some ((logmsg_open_conn s server_spec).1, some (logmsg_open_conn s server_spec).2)
  | Op.printf env level format args =>
    (logmsg_printf s env level format args).map (fun r => (r.1, none))
  | Op.set_level level => some ({ s with logmsg_level := level }, none)

/-- The record of a run: each operation with the value it returned and the state
it left. -/
def run (s : LogState) : List Op → Option (List (Op × Option Int × LogState))
  | [] => some []
  | op :: ops =>
    (op.step s).bind (fun r => (run r.1 ops).map (fun rest => (op, r.2, r.1) :: rest))

/-- The states a program can be in: those reached from the initial values of the
variables by operations of the library. -/
inductive Reachable : LogState → Prop where
  | init : Reachable LogState.init
  | step (s : LogState) (op : Op) (r : LogState × Option Int) :
      Reachable s → op.step s = some r → Reachable r.1

/-- Whether an entry of a run is a call of `logmsg_open_file` that returned `0`. -/
def is_successful_open : Op × Option Int × LogState → Bool
  | (Op.open_file _ _, some 0, _) => true
  | _ => false

/-! ## The documented line and sample data -/

/-- The entry documented in `logmsg.h`:
`<utc-time> <log-level> <host-name>:<program-name>[pid:tid] <message>` and a newline. -/
def log_entry (utc_time log_level host_name program_name pid_tid message : List Char) :
    List Char :=
  utc_time ++ ' ' :: log_level ++ ' ' :: host_name ++ ':' :: program_name ++
    '[' :: pid_tid ++ ']' :: ' ' :: message ++ ['\n']

/-- A sample environment: the instant of the comment in `logmsg_printf`,
2018-09-22 22:08:42 UTC and 86858743 ns, and a write that reports 74 bytes. -/
def sample_env : Env :=
  { clock_gettime := some (1537654122, 86858743)
    gmtime_r := fun _ =>
      some { tm_year := 118, tm_mon := 8, tm_mday := 22, tm_hour := 22, tm_min := 8, tm_sec := 42 }
    gethostname := fun _ => (0, "box".toList)
    getpid := 4711
    gettid := 4712
    snprintf_error := false
    program_invocation_short_name := "test-logmsg".toList
    format_output := fun _ _ => some "pi 3.141590".toList
    malloc_fails := false
    heap_garbage := fun _ => 'x'
    write := 74 }

/-- The entry `logmsg_printf` builds in `sample_env` at level `INFO`. -/
def sample_entry : List Char :=
  "2018-09-22-22:08:42-086858743 INFO box:test-logmsg[4711:4712] pi 3.141590\n".toList

/-- A state with the file open on descriptor 3 and the threshold left at `NONE`. -/
def sample_open_state : LogState := { LogState.init with logger_fd := 3 }

/-- A sample program: a failed open, a successful one on descriptor 3, a change
of threshold, a second open, an `logmsg_open_conn` and a `logmsg_printf`. -/
def sample_ops : List Op :=
  [Op.open_file "log.txt".toList none, Op.open_file "log.txt".toList (some 3),
    Op.set_level LOGMSG_LEVEL_INFO, Op.open_file "other.txt".toList (some 4),
    Op.open_conn "server".toList, Op.printf sample_env LOGMSG_LEVEL_INFO "%s %f".toList []]

/-- The part of the record of `sample_ops` that follows the successful open. -/
def sample_trace_tail : List (Op × Option Int × LogState) :=
  [(Op.set_level LOGMSG_LEVEL_INFO, none,
      { LogState.init with logger_fd := 3, num_open_failures := 1, logmsg_level := 4 }),
    (Op.open_file "other.txt".toList (some 4), some (-1),
      { LogState.init with logger_fd := 3, num_open_failures := 2, logmsg_level := 4 }),
    (Op.open_conn "server".toList, some 0,
      { LogState.init with logger_fd := 3, num_open_failures := 2, logmsg_level := 4 }),
    (Op.printf sample_env LOGMSG_LEVEL_INFO "%s %f".toList [], none,
      { LogState.init with logger_fd := 3, num_open_failures := 2, logmsg_level := 4 })]

/-- The record of `sample_ops` from the initial state. -/
def sample_trace : List (Op × Option Int × LogState) :=
  [(Op.open_file "log.txt".toList none, some (-1), { LogState.init with num_open_failures := 1 })] ++
    (Op.open_file "log.txt".toList (some 3), some 0,
      { LogState.init with logger_fd := 3, num_open_failures := 1 }) :: sample_trace_tail

/-- The fields `logmsg_printf` holds after its gathering blocks and its measuring
pass: the strings of the three local arrays with their lengths, and the message
with the flag of the measuring pass. -/
def Gathered (env : Env) (format : List Char) (args : List Arg)
    (utc host ids msg : List Char) (is_error_text : Bool) : Prop :=
  utc_time_block env = some ((utc.length : Int), utc) ∧
  hostname_block env = some ((host.length : Int), host) ∧
  pid_tid_block env = some ((ids.length : Int), ids) ∧
  message_block env format args = ((msg.length : Int), is_error_text) ∧
  (is_error_text = false → env.format_output format args = some msg) ∧
  (is_error_text = true → msg = format_error_text)

/-- The events of a call of `logmsg_printf` that allocates `size` bytes and, when
the file is open, writes `bytes`. -/
def printf_events (s : LogState) (size : Nat) (bytes : List Char) (freed : Bool) :
    List Event :=
  [Event.get_utc_time, Event.get_hostname, Event.get_process_and_thread_ids,
    Event.malloc size] ++
    (if s.logger_fd ≥ 0 then [Event.write s.logger_fd bytes bytes.length] else []) ++
    (if freed then [Event.free] else [])

/-! ## The fields of an entry, by value -/

/-- Lines 397-406: the string `utc_time_buf` holds after the block, the fixed
text when `get_utc_time` returned a negative value. -/
def utc_time_field (env : Env) : List Char :=
  if (get_utc_time env (32 + 1)).1 < 0 then "**** unknown time ****".toList
  else (get_utc_time env (32 + 1)).2

/-- Lines 426-435: the string `hostname_buf` holds after the block. -/
def hostname_field (env : Env) : List Char :=
  if (get_hostname env (64 + 1)).1 < 0 then "**** unknown hostname ****".toList
  else (get_hostname env (64 + 1)).2

/-- Lines 456-466: the string `pid_tid_buf` holds after the block. -/
def pid_tid_field (env : Env) : List Char :=
  if (get_process_and_thread_ids env (32 + 1)).1 < 0 then
    "**** unknown pid and tid ****".toList
  else (get_process_and_thread_ids env (32 + 1)).2

/-- Lines 485-492 and 602-613: the bytes of the message slot, `format_error_text`
when the measuring pass returned a negative value, else the expansion of the
format. -/
def message_field (env : Env) (format : List Char) (args : List Arg) : List Char :=
  if (vsnprintf env 0 format args).1 < 0 then format_error_text
  else (env.format_output format args).getD []

/-- Lines 518-525: the bytes at `p_log_message` that are passed to `write`, the
static text when `malloc` returned `NULL`, else the assembled line. -/
def entry_of (env : Env) (level : Int) (format : List Char) (args : List Arg) : List Char :=
  if env.malloc_fails then malloc_error_text
  else log_entry (utc_time_field env) (logmsg_level_to_string level) (hostname_field env)
    env.program_invocation_short_name (pid_tid_field env) (message_field env format args)

/-- The `width` low decimal digits of `n`, most significant first: the text of a
number written with exactly `width` digits, zeros in front. -/
def decimal_fixed : Nat → Nat → List Char
  | 0, _ => []
  | width + 1, n => decimal_fixed width (n / 10) ++ [digit n]

/-! ## The log file -/

/-- One call of `logmsg_printf` of a program. -/
structure Call where
  env : Env
  level : Int
  format : List Char
  args : List Arg

/-- The file behind the descriptor is opened with `O_APPEND`: a `write` that
reports `n_written` bytes has put that many bytes of its buffer at the end of the
file; other events leave the file alone. -/
def append_write (n_written : Int) (file : List Char) : Event → List Char
  | Event.write _ buf _ => file ++ buf.take n_written.toNat
  | _ => file

/-- The state and the content of the log file after a sequence of calls of
`logmsg_printf`. -/
def printf_sequence (s : LogState) (file : List Char) : List Call → Option (LogState × List Char)
  | [] => some (s, file)
  | c :: cs =>
    (logmsg_printf s c.env c.level c.format c.args).bind
      (fun r => printf_sequence r.1 (r.2.foldl (append_write c.env.write) file) cs)

/-! ## More sample data -/

/-- An environment in which the clock, the host name query, the formatting of the
ids and the formatting of the message all fail. -/
def failing_env : Env :=
  { sample_env with
    clock_gettime := none
    gethostname := fun _ => (-1, [])
    snprintf_error := true
    format_output := fun _ _ => none
    write := 133 }

/-- The entry `logmsg_printf` builds in `failing_env` at level `INFO`. -/
def failing_entry : List Char :=
  ("**** unknown time **** INFO **** unknown hostname ****:test-logmsg" ++
    "[**** unknown pid and tid ****] **** message formatting error ****\n").toList

/-- The first call of `test-logmsg.cpp`. -/
def pi_call : Call :=
  { env := { sample_env with
      format_output := fun _ _ =>
        some "test-logmsg.cpp:75:main() The value of PI is approximately 3.141590".toList
      write := 130 }
    level := LOGMSG_LEVEL_INFO
    format := "%s:%d:%s() %s %f".toList
    args := [Arg.str "test-logmsg.cpp".toList, Arg.int 75, Arg.str "main".toList,
      Arg.str "The value of PI is approximately".toList, Arg.dbl 4614256650576692846] }

/-- The second call of `test-logmsg.cpp`. -/
def e_call : Call :=
  { env := { sample_env with
      clock_gettime := some (1537654122, 86901217)
      format_output := fun _ _ =>
        some "test-logmsg.cpp:81:main() The value of E is approximately 2.718280".toList
      write := 129 }
    level := LOGMSG_LEVEL_INFO
    format := "%s:%d:%s() %s %f".toList
    args := [Arg.str "test-logmsg.cpp".toList, Arg.int 81, Arg.str "main".toList,
      Arg.str "The value of E is approximately".toList, Arg.dbl 4613303441197561744] }

/-- An environment in which both ids are the least 32 bit value, whose text is
the longest. -/
def min_ids_env : Env := { sample_env with getpid := -2147483648, gettid := -2147483648 }

/-! ## The assembly as a list of stores -/

/-- Lines 540-617 read as a list: the stores of the assembly in program order,
each with its offset from `p_log_message` and the bytes it puts there.  A field
is copied with its terminator, `length + 1` bytes, and the separator that follows
is stored over the terminator. -/
def entry_stores (utc lvl host prog ids msg : List Char) : List (Nat × List Char) :=
  [(0, utc ++ [NUL]),
    (utc.length, [' ']),
    (utc.length + 1, lvl ++ [NUL]),
    (utc.length + 1 + lvl.length, [' ']),
    (utc.length + 1 + lvl.length + 1, host ++ [NUL]),
    (utc.length + 1 + lvl.length + 1 + host.length, [':']),
    (utc.length + 1 + lvl.length + 1 + host.length + 1, prog ++ [NUL]),
    (utc.length + 1 + lvl.length + 1 + host.length + 1 + prog.length, ['[']),
    (utc.length + 1 + lvl.length + 1 + host.length + 1 + prog.length + 1, ids ++ [NUL]),
    (utc.length + 1 + lvl.length + 1 + host.length + 1 + prog.length + 1 + ids.length, [']']),
    (utc.length + 1 + lvl.length + 1 + host.length + 1 + prog.length + 1 + ids.length + 1,
      [' ']),
    (utc.length + 1 + lvl.length + 1 + host.length + 1 + prog.length + 1 + ids.length + 1 + 1,
      msg ++ [NUL]),
    (utc.length + 1 + lvl.length + 1 + host.length + 1 + prog.length + 1 + ids.length + 1 + 1 +
      msg.length, ['\n'])]

/-- The stores of a list done one after the other on a buffer; undefined as soon
as one of them is outside the buffer. -/
def run_stores (buf : List Char) : List (Nat × List Char) → Option (List Char)
  | [] => some buf
  | st :: rest => (poke buf st.1 st.2).bind (fun b => run_stores b rest)

/-! ## Basic facts about the memory operations and conversions -/

theorem size_t_natCast (n : Nat) (h : n < SIZE_MOD) : size_t (n : Int) = n := by
  unfold size_t
  have h1 : ((n : Int) % (SIZE_MOD : Int)) = (n : Int) :=
    Int.emod_eq_of_lt (Int.natCast_nonneg n) (by exact_mod_cast h)
  rw [h1]
  exact Int.toNat_natCast n

theorem strncpy_bytes_whole (src : List Char) :
    strncpy_bytes src (src.length + 1) = src ++ [NUL] := by
  unfold strncpy_bytes
  rw [List.take_of_length_le (Nat.le_succ _)]
  simp

theorem poke_append (pre rest data : List Char) (h : data.length ≤ rest.length) :
    poke (pre ++ rest) pre.length data = some (pre ++ data ++ rest.drop data.length) := by
  unfold poke
  have h1 : pre.length + data.length ≤ (pre ++ rest).length := by
    rw [List.length_append]; omega
  rw [if_pos h1]
  congr 1
  rw [List.take_left, List.drop_append]

theorem poke_field (pre rest field : List Char) (x sep : Char)
    (h : field.length + 1 ≤ rest.length) :
    (poke (pre ++ rest) pre.length (field ++ [x])).bind
        (fun buf => poke buf (pre.length + field.length) [sep]) =
      some (pre ++ field ++ [sep] ++ rest.drop (field.length + 1)) := by
  rw [poke_append pre rest (field ++ [x]) (by simpa using h)]
  simp only [Option.some_bind]
  have e1 : pre ++ (field ++ [x]) ++ List.drop (field ++ [x]).length rest =
      (pre ++ field) ++ (x :: List.drop (field.length + 1) rest) := by
    simp
  have e2 : pre.length + field.length = (pre ++ field).length := by simp
  rw [e1, e2, poke_append (pre ++ field) _ [sep] (by simp)]
  simp

theorem size_t_succ_natCast (n : Nat) (h : n + 1 < SIZE_MOD) :
    size_t ((n : Int) + 1) = n + 1 := by
  have := size_t_natCast (n + 1) h
  push_cast at this
  exact this

theorem poke_at (buf pre rest data : List Char) (off : Nat) (hb : buf = pre ++ rest)
    (ho : off = pre.length) (h : data.length ≤ rest.length) :
    poke buf off data = some (pre ++ data ++ rest.drop data.length) := by
  subst hb ho
  exact poke_append pre rest data h

theorem poke_sep (pre field rest : List Char) (x sep : Char) :
    poke (pre ++ (field ++ [x]) ++ rest) (pre.length + field.length) [sep] =
      some (pre ++ field ++ [sep] ++ rest) := by
  rw [poke_at _ (pre ++ field) (x :: rest) [sep] _ (by simp) (by simp) (by simp)]
  simp

theorem write_utc_time_eq (pre rest f : List Char) (h : f.length + 1 ≤ rest.length)
    (hs : f.length + 1 < SIZE_MOD) :
    write_utc_time f (f.length : Int) (pre ++ rest, pre.length) =
      some (pre ++ f ++ [' '] ++ rest.drop (f.length + 1), (pre ++ f ++ [' ']).length) := by
  simp only [write_utc_time, size_t_succ_natCast _ hs, strncpy_bytes_whole, Int.toNat_natCast]
  rw [poke_append pre rest (f ++ [NUL]) (by simpa using h)]
  simp only [Option.bind_eq_bind, Option.some_bind, poke_sep]
  simp [Nat.add_assoc]

theorem write_log_level_eq (pre rest f : List Char) (h : f.length + 1 ≤ rest.length)
    (hs : f.length + 1 < SIZE_MOD) :
    write_log_level f f.length (pre ++ rest, pre.length) =
      some (pre ++ f ++ [' '] ++ rest.drop (f.length + 1), (pre ++ f ++ [' ']).length) := by
  simp only [write_log_level, Nat.mod_eq_of_lt hs, strncpy_bytes_whole]
  rw [poke_append pre rest (f ++ [NUL]) (by simpa using h)]
  simp only [Option.bind_eq_bind, Option.some_bind, poke_sep]
  simp [Nat.add_assoc]

theorem write_hostname_eq (pre rest f : List Char) (h : f.length + 1 ≤ rest.length)
    (hs : f.length + 1 < SIZE_MOD) :
    write_hostname f (f.length : Int) (pre ++ rest, pre.length) =
      some (pre ++ f ++ [':'] ++ rest.drop (f.length + 1), (pre ++ f ++ [':']).length) := by
  simp only [write_hostname, size_t_succ_natCast _ hs, strncpy_bytes_whole, Int.toNat_natCast]
  rw [poke_append pre rest (f ++ [NUL]) (by simpa using h)]
  simp only [Option.bind_eq_bind, Option.some_bind, poke_sep]
  simp [Nat.add_assoc]

theorem write_program_name_eq (pre rest f : List Char) (h : f.length + 1 ≤ rest.length)
    (hs : f.length + 1 < SIZE_MOD) :
    write_program_name f f.length (pre ++ rest, pre.length) =
      some ((pre ++ f) ++ (NUL :: rest.drop (f.length + 1)), (pre ++ f).length) := by
  simp only [write_program_name, Nat.mod_eq_of_lt hs, strncpy_bytes_whole]
  rw [poke_append pre rest (f ++ [NUL]) (by simpa using h)]
  simp

theorem write_pid_tid_eq (pre rest f : List Char) (h : f.length + 3 ≤ rest.length)
    (hs : f.length + 1 < SIZE_MOD) :
    write_pid_tid f (f.length : Int) (pre ++ rest, pre.length) =
      some (pre ++ '[' :: f ++ [']', ' '] ++ rest.drop (f.length + 3),
        (pre ++ '[' :: f ++ [']', ' ']).length) := by
  simp only [write_pid_tid, size_t_succ_natCast _ hs, strncpy_bytes_whole, Int.toNat_natCast]
  rw [poke_append pre rest ['['] (by simp; omega)]
  simp only [Option.bind_eq_bind, Option.some_bind]
  rw [poke_at _ (pre ++ ['[']) (rest.drop 1) (f ++ [NUL]) _ (by simp) (by simp)
    (by simp; omega)]
  simp only [Option.bind_eq_bind, Option.some_bind]
  rw [show pre.length + 1 + f.length = (pre ++ ['[']).length + f.length by simp, poke_sep]
  simp only [Option.bind_eq_bind, Option.some_bind]
  rw [poke_at _ (pre ++ ['['] ++ f ++ [']']) (List.drop (f ++ [NUL]).length (List.drop 1 rest))
    [' '] _ (by simp) (by simp; omega) (by simp; omega)]
  have e : 1 + (f ++ [NUL]).length = f.length + 2 := by simp; omega
  simp only [Option.bind_eq_bind, Option.some_bind, List.drop_drop, e]
  have e2 : f.length + 2 + [' '].length = f.length + 3 := by simp
  have e3 : (pre ++ ['[']).length + f.length + 1 + 1 =
      (pre ++ '[' :: f ++ [']', ' ']).length := by
    simp; omega
  rw [e2, e3]
  simp

theorem write_message_eq (env : Env) (format : List Char) (args : List Arg)
    (pre rest m : List Char) (is_error_text : Bool)
    (h : m.length + 1 ≤ rest.length) (hi : (m.length : Int) + 1 ≤ INT_MAX)
    (hv : is_error_text = false → env.format_output format args = some m)
    (he : is_error_text = true → m = format_error_text) :
    write_message env format args is_error_text (m.length : Int) (pre ++ rest, pre.length) =
      some (pre ++ m ++ ['\n'] ++ rest.drop (m.length + 1), (pre ++ m ++ ['\n']).length) := by
  have hs : m.length + 1 < SIZE_MOD := by
    have : (m.length : Int) + 1 ≤ 2 ^ 31 - 1 := hi
    unfold SIZE_MOD
    omega
  have hgt : ¬ ((m.length : Int) > INT_MAX) := by omega
  cases is_error_text with
  | false =>
    simp only [write_message, size_t_succ_natCast _ hs, Int.toNat_natCast,
      if_neg (not_lt.mpr hi), if_true, vsnprintf, hv rfl, hgt, if_false, Nat.add_sub_cancel,
      List.take_length, Nat.succ_ne_zero]
    rw [poke_append pre rest (m ++ [NUL]) (by simpa using h)]
    simp only [Option.bind_eq_bind, Option.some_bind, poke_sep]
    simp [Nat.add_assoc]
  | true =>
    rw [he rfl]
    rw [he rfl] at h hs hi
    simp only [write_message, size_t_succ_natCast _ hs, Int.toNat_natCast,
      if_neg (not_lt.mpr hi), strncpy_bytes_whole]
    simp only [Bool.true_eq_false, if_false]
    rw [poke_append pre rest (format_error_text ++ [NUL]) (by simpa using h)]
    simp only [Option.bind_eq_bind, Option.some_bind, poke_sep]
    simp [Nat.add_assoc]

theorem log_entry_length (utc lvl host prog ids msg : List Char) :
    (log_entry utc lvl host prog ids msg).length =
      utc.length + lvl.length + host.length + prog.length + ids.length + msg.length + 7 := by
  simp [log_entry]
  omega

theorem assemble_eq (env : Env) (format : List Char) (args : List Arg)
    (block utc lvl host prog ids msg : List Char) (is_error_text : Bool)
    (hlen : (log_entry utc lvl host prog ids msg).length + 1 ≤ block.length)
    (hsz : (log_entry utc lvl host prog ids msg).length + 1 < SIZE_MOD)
    (hi : (msg.length : Int) + 1 ≤ INT_MAX)
    (hv : is_error_text = false → env.format_output format args = some msg)
    (he : is_error_text = true → msg = format_error_text) :
    assemble env format args block utc utc.length lvl lvl.length host host.length
        prog prog.length ids ids.length is_error_text msg.length =
      some (log_entry utc lvl host prog ids msg ++
          block.drop (log_entry utc lvl host prog ids msg).length,
        (log_entry utc lvl host prog ids msg).length) := by
  rw [log_entry_length] at hlen hsz
  unfold assemble
  have e0 : (block, 0) = (([] : List Char) ++ block, ([] : List Char).length) := by simp
  rw [e0, write_utc_time_eq _ _ _ (by omega) (by omega), Option.some_bind,
    write_log_level_eq _ _ _ (by simp; omega) (by omega), Option.some_bind,
    write_hostname_eq _ _ _ (by simp; omega) (by omega), Option.some_bind,
    write_program_name_eq _ _ _ (by simp; omega) (by omega), Option.some_bind,
    write_pid_tid_eq _ _ _ (by simp; omega) (by omega), Option.some_bind,
    write_message_eq env format args _ _ msg is_error_text (by simp; omega) hi hv he]
  simp [log_entry]
  congr 1
  omega

theorem utoa_loop_length (fuel : Nat) : ∀ (n : Nat) (acc : List Char) (k : Nat),
    n < 10 ^ (k + 1) → n < fuel → (utoa_loop fuel n acc).length ≤ acc.length + k + 1 := by
  induction fuel with
  | zero => intro n acc k _ hf; omega
  | succ f ih =>
    intro n acc k hn hf
    unfold utoa_loop
    by_cases h10 : n < 10
    · simp [h10]
    · rw [if_neg h10]
      cases k with
      | zero => simp at hn; omega
      | succ k =>
        have h1 : n / 10 < 10 ^ (k + 1) := by
          rw [Nat.div_lt_iff_lt_mul (by decide)]
          rw [pow_succ] at hn
          exact hn
        have h2 : n / 10 < f := by omega
        have := ih (n / 10) (digit n :: acc) k h1 h2
        simp at this
        omega

theorem utoa_length_le (n k : Nat) (hn : n < 10 ^ (k + 1)) : (utoa n).length ≤ k + 1 := by
  have := utoa_loop_length (n + 1) n [] k hn (Nat.lt_succ_self n)
  simpa [utoa] using this

theorem pid_t_range (v : Int) : -(2 ^ 31) ≤ pid_t v ∧ pid_t v < 2 ^ 31 := by
  unfold pid_t
  constructor <;> omega

theorem itoa_pid_t_length (v : Int) : (itoa (pid_t v)).length ≤ 11 := by
  obtain ⟨h1, h2⟩ := pid_t_range v
  unfold itoa
  split
  · have : (-(pid_t v)).toNat < 10 ^ (9 + 1) := by
      have : (-(pid_t v)).toNat ≤ 2 ^ 31 := by omega
      norm_num at this ⊢
      omega
    have := utoa_length_le _ 9 this
    simp
    omega
  · have : (pid_t v).toNat < 10 ^ (9 + 1) := by
      have : (pid_t v).toNat < 2 ^ 31 := by omega
      norm_num at this ⊢
      omega
    have := utoa_length_le _ 9 this
    omega

theorem snprintf_09lu_length (nsec : Int) : (snprintf_09lu (1 + 9 + 1) nsec).length = 10 := by
  simp [snprintf_09lu, zero_pad]
  omega

theorem get_utc_time_nonneg (env : Env) (buffer_len : Nat) (hb : buffer_len + 10 ≤ SIZE_MOD)
    (h : 0 ≤ (get_utc_time env buffer_len).1) :
    ((get_utc_time env buffer_len).2.length : Int) = (get_utc_time env buffer_len).1 ∧
      (get_utc_time env buffer_len).2.length < buffer_len := by
  unfold get_utc_time at h ⊢
  cases hc : env.clock_gettime with
  | none => simp [hc] at h
  | some t =>
    obtain ⟨tv_sec, tv_nsec⟩ := t
    simp only [hc] at h ⊢
    cases hg : env.gmtime_r tv_sec with
    | none => simp [hg] at h
    | some tm =>
      simp only [hg] at h ⊢
      by_cases h0 : (strftime buffer_len tm).1 = 0
      · simp [h0] at h
      · simp only [h0, if_false] at h ⊢
        by_cases h4 : ((strftime buffer_len tm).1 + 1 + 9) % SIZE_MOD ≥ buffer_len
        · simp [h4] at h
        · simp only [h4, if_false] at h ⊢
          have hfit : (strftime_text tm).length + 1 ≤ buffer_len := by
            by_contra hc2
            apply h0
            simp [strftime, hc2]
          have e1 : (strftime buffer_len tm).1 = (strftime_text tm).length := by
            simp [strftime, hfit]
          have e2 : (strftime buffer_len tm).2 = strftime_text tm := by
            simp [strftime, hfit]
          rw [e1] at h4
          rw [e1, e2]
          have hlt : (strftime_text tm).length + (1 + 9) < SIZE_MOD := by omega
          have hlt2 : (strftime_text tm).length + 1 + 9 < SIZE_MOD := by omega
          rw [Nat.mod_eq_of_lt hlt2] at h4
          rw [Nat.mod_eq_of_lt hlt]
          simp only [List.take_length, List.length_append, snprintf_09lu_length]
          constructor
          · push_cast
            try ring
          · omega

theorem utc_time_block_eq (env : Env) :
    ∃ utc : List Char, utc_time_block env = some ((utc.length : Int), utc) ∧ utc.length ≤ 32 ∧
      (0 ≤ (get_utc_time env (32 + 1)).1 → utc = (get_utc_time env (32 + 1)).2) ∧
      ((get_utc_time env (32 + 1)).1 < 0 → utc = "**** unknown time ****".toList) := by
  by_cases h : (get_utc_time env (32 + 1)).1 < 0
  · refine ⟨"**** unknown time ****".toList, ?_, by decide, fun h2 => absurd h (not_lt.mpr h2),
      fun _ => rfl⟩
    rw [utc_time_block, if_pos h]
    rfl
  · have h2 := get_utc_time_nonneg env (32 + 1) (by unfold SIZE_MOD; norm_num) (not_lt.mp h)
    refine ⟨(get_utc_time env (32 + 1)).2, ?_, by omega, fun _ => rfl, fun h3 => absurd h3 h⟩
    rw [utc_time_block, if_neg h, h2.1]

theorem hostname_block_eq (env : Env) :
    ∃ host : List Char, hostname_block env = some ((host.length : Int), host) ∧
      (host = (env.gethostname (64 + 1)).2 ∨ host = "**** unknown hostname ****".toList) ∧
      ((env.gethostname (64 + 1)).1 = 0 → host = (env.gethostname (64 + 1)).2) ∧
      ((env.gethostname (64 + 1)).1 ≠ 0 → host = "**** unknown hostname ****".toList) := by
  by_cases h : (env.gethostname (64 + 1)).1 = 0
  · refine ⟨(env.gethostname (64 + 1)).2, ?_, Or.inl rfl, fun _ => rfl, fun h2 => absurd h h2⟩
    simp [hostname_block, get_hostname, h, strlen]
  · refine ⟨"**** unknown hostname ****".toList, ?_, Or.inr rfl, fun h2 => absurd h2 h,
      fun _ => rfl⟩
    simp only [hostname_block, get_hostname, h, ne_eq, not_false_eq_true, if_true]
    rfl

theorem get_process_and_thread_ids_nonneg (env : Env) (buffer_len : Nat)
    (h : 0 ≤ (get_process_and_thread_ids env buffer_len).1) :
    ((get_process_and_thread_ids env buffer_len).2.length : Int) =
        (get_process_and_thread_ids env buffer_len).1 ∧
      (get_process_and_thread_ids env buffer_len).2.length < buffer_len ∧
      (get_process_and_thread_ids env buffer_len).2 =
        itoa (pid_t env.getpid) ++ ':' :: itoa (pid_t env.gettid) := by
  have hl1 := itoa_pid_t_length env.getpid
  have hl2 := itoa_pid_t_length env.gettid
  have hlen : (itoa (pid_t env.getpid) ++ ':' :: itoa (pid_t env.gettid)).length < SIZE_MOD := by
    simp only [List.length_append, List.length_cons]
    unfold SIZE_MOD
    omega
  unfold get_process_and_thread_ids at h ⊢
  cases he : env.snprintf_error with
  | true => simp [he, snprintf_d_d] at h
  | false =>
    simp only [he, snprintf_d_d, Bool.false_eq_true, if_false] at h ⊢
    rw [size_t_natCast _ hlen] at h ⊢
    by_cases hc : ((itoa (pid_t env.getpid) ++ ':' :: itoa (pid_t env.gettid)).length : Int) < 0 ∨
        (itoa (pid_t env.getpid) ++ ':' :: itoa (pid_t env.gettid)).length ≥ buffer_len
    · rw [if_pos hc] at h
      simp at h
    · rw [if_neg hc]
      have hlt : (itoa (pid_t env.getpid) ++ ':' :: itoa (pid_t env.gettid)).length <
          buffer_len := by
        have := not_or.mp hc
        omega
      have htake : List.take (buffer_len - 1)
          (itoa (pid_t env.getpid) ++ ':' :: itoa (pid_t env.gettid)) =
          itoa (pid_t env.getpid) ++ ':' :: itoa (pid_t env.gettid) :=
        List.take_of_length_le (by omega)
      simp only [htake]
      exact ⟨trivial, hlt, trivial⟩

theorem pid_tid_block_eq (env : Env) :
    ∃ ids : List Char, pid_tid_block env = some ((ids.length : Int), ids) ∧ ids.length ≤ 32 ∧
      (0 ≤ (get_process_and_thread_ids env (32 + 1)).1 →
        ids = (get_process_and_thread_ids env (32 + 1)).2) ∧
      ((get_process_and_thread_ids env (32 + 1)).1 < 0 →
        ids = "**** unknown pid and tid ****".toList) := by
  by_cases h : (get_process_and_thread_ids env (32 + 1)).1 < 0
  · refine ⟨"**** unknown pid and tid ****".toList, ?_, by decide,
      fun h2 => absurd h (not_lt.mpr h2), fun _ => rfl⟩
    rw [pid_tid_block, if_pos h]
    rfl
  · have h2 := get_process_and_thread_ids_nonneg env (32 + 1) (not_lt.mp h)
    refine ⟨(get_process_and_thread_ids env (32 + 1)).2, ?_, by omega, fun _ => rfl,
      fun h3 => absurd h3 h⟩
    rw [pid_tid_block, if_neg h, h2.1]

theorem message_block_eq (env : Env) (format : List Char) (args : List Arg) :
    ∃ (msg : List Char) (is_error_text : Bool),
      message_block env format args = ((msg.length : Int), is_error_text) ∧
      (is_error_text = false → env.format_output format args = some msg) ∧
      (is_error_text = true → msg = format_error_text) := by
  unfold message_block vsnprintf
  cases hf : env.format_output format args with
  | none =>
    refine ⟨format_error_text, true, ?_, by simp, fun _ => rfl⟩
    simp [strlen]
  | some text =>
    by_cases hlen : (text.length : Int) > INT_MAX
    · refine ⟨format_error_text, true, ?_, by simp, fun _ => rfl⟩
      simp [hlen, strlen]
    · refine ⟨text, false, ?_, fun _ => rfl, by simp⟩
      simp [hlen]

theorem logmsg_level_to_string_eq (level : Int) :
    logmsg_level_to_string level =
      if level = 0 then "NONE".toList
      else if level = 1 then "FATAL".toList
      else if level = 2 then "ERROR".toList
      else if level = 3 then "WARN".toList
      else if level = 4 then "INFO".toList
      else if level = 5 then "DEBUG".toList
      else if level = 6 then "TRACE".toList
      else "UNDEFINED".toList := by
  by_cases h : 0 ≤ level ∧ level ≤ 6
  · obtain ⟨h0, h6⟩ := h
    interval_cases level <;> rfl
  · have hne : ¬ (level ≥ LOGMSG_LEVEL_MIN ∧ level ≤ LOGMSG_LEVEL_MAX) := h
    rw [logmsg_level_to_string, if_neg hne]
    have h0 : level ≠ 0 := by omega
    have h1 : level ≠ 1 := by omega
    have h2 : level ≠ 2 := by omega
    have h3 : level ≠ 3 := by omega
    have h4 : level ≠ 4 := by omega
    have h5 : level ≠ 5 := by omega
    have h6 : level ≠ 6 := by omega
    simp only [h0, h1, h2, h3, h4, h5, h6, if_false]

theorem logmsg_level_to_string_length (level : Int) :
    (logmsg_level_to_string level).length ≤ 9 := by
  rw [logmsg_level_to_string_eq]
  repeat' split
  all_goals decide

theorem gathered_exists (env : Env) (format : List Char) (args : List Arg) :
    ∃ (utc host ids msg : List Char) (is_error_text : Bool),
      Gathered env format args utc host ids msg is_error_text := by
  obtain ⟨utc, hu, -⟩ := utc_time_block_eq env
  obtain ⟨host, hh, -⟩ := hostname_block_eq env
  obtain ⟨ids, hi, -⟩ := pid_tid_block_eq env
  obtain ⟨msg, b, hm, hv, he⟩ := message_block_eq env format args
  exact ⟨utc, host, ids, msg, b, hu, hh, hi, hm, hv, he⟩

theorem gathered_bounds (env : Env) (format : List Char) (args : List Arg)
    (utc host ids msg : List Char) (is_error_text : Bool)
    (hg : Gathered env format args utc host ids msg is_error_text)
    (hhost : (env.gethostname (64 + 1)).2.length ≤ 64) :
    utc.length ≤ 32 ∧ host.length ≤ 64 ∧ ids.length ≤ 32 ∧ (msg.length : Int) ≤ INT_MAX := by
  obtain ⟨hu, hh, hi, hm, hv, he⟩ := hg
  obtain ⟨utc2, hu2, hub, -⟩ := utc_time_block_eq env
  obtain ⟨host2, hh2, hhb, -⟩ := hostname_block_eq env
  obtain ⟨ids2, hi2, hib, -⟩ := pid_tid_block_eq env
  rw [hu] at hu2
  rw [hh] at hh2
  rw [hi] at hi2
  simp only [Option.some.injEq, Prod.mk.injEq] at hu2 hh2 hi2
  obtain ⟨-, rfl⟩ := hu2
  obtain ⟨-, rfl⟩ := hh2
  obtain ⟨-, rfl⟩ := hi2
  refine ⟨hub, ?_, hib, ?_⟩
  · rcases hhb with h | h
    · rw [h]; exact hhost
    · rw [h]; decide
  · cases is_error_text with
    | true => rw [he rfl]; decide
    | false =>
      have hf := hv rfl
      unfold message_block vsnprintf at hm
      rw [hf] at hm
      by_cases hlen : (msg.length : Int) > INT_MAX
      · simp [hlen, strlen] at hm
      · exact not_lt.mp hlen

theorem peek_entry (entry rest : List Char) :
    peek (entry ++ rest) 0 entry.length = some entry := by
  simp [peek]

theorem log_message_len_eq (utc lvl host prog ids msg : List Char)
    (h : (log_entry utc lvl host prog ids msg).length < SIZE_MOD) :
    log_message_len utc.length lvl.length host.length prog.length ids.length msg.length =
      (log_entry utc lvl host prog ids msg).length := by
  unfold log_message_len
  have e : ((utc.length : Int) + 1 + (lvl.length : Nat) + 1 + (host.length : Int) + 1 +
      (prog.length : Nat) + 1 + (ids.length : Int) + 1 + 1 + (msg.length : Int) + 1) =
      (((log_entry utc lvl host prog ids msg).length : Nat) : Int) := by
    rw [log_entry_length]
    push_cast
    ring
  rw [e, size_t_natCast _ h]

theorem logmsg_printf_of_gathered (s : LogState) (env : Env) (level : Int)
    (format : List Char) (args : List Arg) (utc host ids msg : List Char)
    (is_error_text : Bool)
    (hg : Gathered env format args utc host ids msg is_error_text)
    (hmsg : (msg.length : Int) < INT_MAX)
    (hprog : env.program_invocation_short_name.length < 2 ^ 32)
    (hhost : (env.gethostname (64 + 1)).2.length ≤ 64) :
    logmsg_printf s env level format args =
      if env.malloc_fails then
        some (write_block s env malloc_error_text.length,
          printf_events s ((log_entry utc (logmsg_level_to_string level) host
            env.program_invocation_short_name ids msg).length + 1) malloc_error_text false)
      else
        some (write_block s env (log_entry utc (logmsg_level_to_string level) host
            env.program_invocation_short_name ids msg).length,
          printf_events s ((log_entry utc (logmsg_level_to_string level) host
            env.program_invocation_short_name ids msg).length + 1)
            (log_entry utc (logmsg_level_to_string level) host
              env.program_invocation_short_name ids msg) true) := by
  obtain ⟨hub, hhb, hib, hmb⟩ := gathered_bounds env format args utc host ids msg
    is_error_text hg hhost
  obtain ⟨hu, hh, hi, hm, hv, he⟩ := hg
  have hlvl := logmsg_level_to_string_length level
  have hL : (log_entry utc (logmsg_level_to_string level) host
      env.program_invocation_short_name ids msg).length + 1 < SIZE_MOD := by
    rw [log_entry_length]
    have : (msg.length : Int) < 2 ^ 31 - 1 := hmsg
    unfold SIZE_MOD
    omega
  have hlen := log_message_len_eq utc (logmsg_level_to_string level) host
    env.program_invocation_short_name ids msg (by omega)
  unfold logmsg_printf
  simp only [hu, hh, hi, hm, strlen, hlen, Nat.mod_eq_of_lt hL, Option.bind_eq_bind,
    Option.some_bind]
  cases hmf : env.malloc_fails with
  | true =>
    simp only [if_true, Option.pure_def, Option.some_bind]
    by_cases hfd : s.logger_fd ≥ 0
    · simp only [hfd, if_true, printf_events]
      rw [peek_entry]
      simp
    · simp [hfd, printf_events]
  | false =>
    simp only [Bool.false_eq_true, if_false]
    rw [assemble_eq env format args _ utc (logmsg_level_to_string level) host
      env.program_invocation_short_name ids msg is_error_text (by simp)
      hL (by have : (msg.length : Int) < 2 ^ 31 - 1 := hmsg
             show (msg.length : Int) + 1 ≤ 2 ^ 31 - 1
             omega) hv he]
    simp only [Option.map_some', Option.some_bind]
    by_cases hfd : s.logger_fd ≥ 0
    · simp only [hfd, if_true, printf_events]
      rw [peek_entry]
      simp
    · simp [hfd, printf_events]

theorem logmsg_printf_shape (s : LogState) (env : Env) (level : Int) (format : List Char)
    (args : List Arg) (r : LogState × List Event)
    (h : logmsg_printf s env level format args = some r) :
    ∃ (len size : Nat) (written freed : List Event),
      r = (write_block s env len,
        [Event.get_utc_time, Event.get_hostname, Event.get_process_and_thread_ids,
          Event.malloc size] ++ written ++ freed) ∧
      (s.logger_fd < 0 → written = []) ∧
      (s.logger_fd ≥ 0 → ∃ bytes, written = [Event.write s.logger_fd bytes len]) ∧
      (freed = [] ∨ freed = [Event.free]) := by
  unfold logmsg_printf at h
  simp only [Option.bind_eq_bind, Option.bind_eq_some, Option.pure_def, Option.some.injEq] at h
  obtain ⟨utc, -, host, -, ids, -, entry, -, written, hw, hr⟩ := h
  refine ⟨entry.2.1, _, written, _, hr.symm, ?_, ?_, ?_⟩
  · intro hfd
    rw [if_neg (not_le.mpr hfd)] at hw
    simpa using hw.symm
  · intro hfd
    rw [if_pos hfd] at hw
    simp only [Option.map_eq_some'] at hw
    obtain ⟨bytes, -, hb⟩ := hw
    exact ⟨bytes, hb.symm⟩
  · cases entry.2.2 <;> simp

/-! ## C1: the assembled entry -/

/-- C1: when the three context fields are gathered (`get_utc_time` and
`get_process_and_thread_ids` return non-negative values, `gethostname` reports
status 0), the caller's message is formatted to `msg`, and `malloc` succeeds, then
for every level, in `[0,6]` or not, the call hands to the open destination exactly
`utc ++ " " ++ logmsg_level_to_string level ++ " " ++ host ++ ":" ++ program ++ "[" ++
ids ++ "]" ++ " " ++ msg ++ "\n"`, in one write whose count is the length of that
text.  Sizes are those of the machine: the host name fits its 65 byte array, the
program name is shorter than `2 ^ 32`, the message shorter than `INT_MAX`. -/
theorem logmsg_printf_entry_exact (s : LogState) (env : Env) (level : Int)
    (format : List Char) (args : List Arg) (n m : Int) (utc host ids msg entry : List Char)
    (hopen : s.logger_fd ≥ 0)
    (hutc : get_utc_time env (32 + 1) = (n, utc)) (hn : 0 ≤ n)
    (hhost : env.gethostname (64 + 1) = (0, host)) (hhl : host.length ≤ 64)
    (hids : get_process_and_thread_ids env (32 + 1) = (m, ids)) (hm : 0 ≤ m)
    (hmsg : env.format_output format args = some msg) (hml : (msg.length : Int) < INT_MAX)
    (hprog : env.program_invocation_short_name.length < 2 ^ 32)
    (halloc : env.malloc_fails = false)
    (hentry : entry = utc ++ " ".toList ++ logmsg_level_to_string level ++ " ".toList ++ host ++
      ":".toList ++ env.program_invocation_short_name ++ "[".toList ++ ids ++ "]".toList ++
      " ".toList ++ msg ++ "\n".toList) :
    logmsg_printf s env level format args =
      some (write_block s env entry.length,
        [Event.get_utc_time, Event.get_hostname, Event.get_process_and_thread_ids,
          Event.malloc (entry.length + 1), Event.write s.logger_fd entry entry.length,
          Event.free]) := by
  have hg : Gathered env format args utc host ids msg false := by
    obtain ⟨utc2, hu2, -, hu3, -⟩ := utc_time_block_eq env
    obtain ⟨host2, hh2, -, hh3, -⟩ := hostname_block_eq env
    obtain ⟨ids2, hi2, -, hi3, -⟩ := pid_tid_block_eq env
    rw [hutc] at hu3
    rw [hhost] at hh3
    rw [hids] at hi3
    rw [hu3 hn] at hu2
    rw [hh3 rfl] at hh2
    rw [hi3 hm] at hi2
    refine ⟨hu2, hh2, hi2, ?_, fun _ => hmsg, by simp⟩
    have hgt : ¬ ((msg.length : Int) > INT_MAX) := by omega
    simp [message_block, vsnprintf, hmsg, hgt]
  have hhost2 : (env.gethostname (64 + 1)).2.length ≤ 64 := by rw [hhost]; exact hhl
  rw [logmsg_printf_of_gathered s env level format args utc host ids msg false hg hml hprog
    hhost2, halloc]
  have he : entry = log_entry utc (logmsg_level_to_string level) host
      env.program_invocation_short_name ids msg := by
    rw [hentry]
    simp [log_entry]
  simp [printf_events, hopen, ← he]

theorem logmsg_printf_entry_exact_witness :
    logmsg_printf sample_open_state sample_env LOGMSG_LEVEL_INFO "%s %f".toList
        [Arg.str "pi".toList, Arg.dbl 4614256650576692846] =
      some (write_block sample_open_state sample_env sample_entry.length,
        [Event.get_utc_time, Event.get_hostname, Event.get_process_and_thread_ids,
          Event.malloc (sample_entry.length + 1),
          Event.write sample_open_state.logger_fd sample_entry sample_entry.length,
          Event.free]) :=
  logmsg_printf_entry_exact sample_open_state sample_env LOGMSG_LEVEL_INFO "%s %f".toList
    [Arg.str "pi".toList, Arg.dbl 4614256650576692846] 29 9
    "2018-09-22-22:08:42-086858743".toList "box".toList "4711:4712".toList
    "pi 3.141590".toList sample_entry (by decide) (by decide) (by decide) (by decide)
    (by decide) (by decide) (by decide) (by decide) (by decide) (by decide) (by decide)
    (by decide)

/-! ## C2: level names -/

/-- C2: `logmsg_level_to_string` is a total function which returns `NONE`,
`FATAL`, `ERROR`, `WARN`, `INFO`, `DEBUG`, `TRACE` for the levels 0 to 6 and
`UNDEFINED` for every other integer, the sentinel `LOGMSG_LEVEL_UNDEFINED = -1`
included. -/
theorem logmsg_level_to_string_total :
    logmsg_level_to_string 0 = "NONE".toList ∧
    logmsg_level_to_string 1 = "FATAL".toList ∧
    logmsg_level_to_string 2 = "ERROR".toList ∧
    logmsg_level_to_string 3 = "WARN".toList ∧
    logmsg_level_to_string 4 = "INFO".toList ∧
    logmsg_level_to_string 5 = "DEBUG".toList ∧
    logmsg_level_to_string 6 = "TRACE".toList ∧
    LOGMSG_LEVEL_UNDEFINED = -1 ∧
    logmsg_level_to_string LOGMSG_LEVEL_UNDEFINED = "UNDEFINED".toList ∧
    ∀ level : Int, ¬ (0 ≤ level ∧ level ≤ 6) →
      logmsg_level_to_string level = "UNDEFINED".toList := by
  refine ⟨rfl, rfl, rfl, rfl, rfl, rfl, rfl, rfl, rfl, ?_⟩
  intro level h
  have hne : ¬ (level ≥ LOGMSG_LEVEL_MIN ∧ level ≤ LOGMSG_LEVEL_MAX) := h
  rw [logmsg_level_to_string, if_neg hne]

theorem logmsg_level_to_string_total_witness :
    logmsg_level_to_string 7 = "UNDEFINED".toList ∧
      logmsg_level_to_string (-2147483648) = "UNDEFINED".toList :=
  ⟨logmsg_level_to_string_total.2.2.2.2.2.2.2.2.2 7 (by decide),
    logmsg_level_to_string_total.2.2.2.2.2.2.2.2.2 (-2147483648) (by decide)⟩

/-! ## C3: the gated macros -/

theorem gated_macros_mem (m : Int × (CallSite → LogState → Env → List Char → List Arg →
    Option (LogState × List Event))) (hm : m ∈ gated_macros) :
    m.2 = LOGMSG_LEVEL_PRINTF m.1 ∧ 1 ≤ m.1 ∧ m.1 ≤ 6 := by
  simp only [gated_macros, List.mem_cons, List.mem_singleton, List.not_mem_nil, or_false] at hm
  rcases hm with h | h | h | h | h | h <;> subst h <;> exact ⟨rfl, by decide, by decide⟩

/-- C3: for each of the six macros `LOGMSG_<LEVEL>_PRINTF` and every value of
`logmsg_level`, the macro is the call of `logmsg_printf` at `LEVEL` (with the
call site put in front of the format and the arguments) when
`logmsg_level >= LEVEL`, and otherwise does nothing: no event at all (no context
gathering, no allocation, no write) and the state, hence the handle and the three
counters, is kept.  A call of `get_utc_time` is observed if and only if
`logmsg_level >= LEVEL`. -/
theorem gated_macro_calls_iff_enabled
    (m : Int × (CallSite → LogState → Env → List Char → List Arg →
      Option (LogState × List Event)))
    (hm : m ∈ gated_macros) (site : CallSite) (s : LogState) (env : Env)
    (format : List Char) (args : List Arg) :
    (s.logmsg_level ≥ m.1 →
      m.2 site s env format args =
        logmsg_printf s env m.1 ("%s:%d:%s() ".toList ++ format)
          (Arg.str site.file :: Arg.int site.line :: Arg.str site.function :: args)) ∧
    (s.logmsg_level < m.1 → m.2 site s env format args = some (s, [])) ∧
    (∀ r, m.2 site s env format args = some r →
      (Event.get_utc_time ∈ r.2 ↔ s.logmsg_level ≥ m.1)) := by
  obtain ⟨hdef, -, -⟩ := gated_macros_mem m hm
  rw [hdef]
  refine ⟨?_, ?_, ?_⟩
  · intro h
    simp [LOGMSG_LEVEL_PRINTF, LOGMSG_PRINTF, h]
  · intro h
    simp [LOGMSG_LEVEL_PRINTF, not_le.mpr h]
  · intro r hr
    by_cases h : s.logmsg_level ≥ m.1
    · simp only [LOGMSG_LEVEL_PRINTF, LOGMSG_PRINTF, h, if_true] at hr
      obtain ⟨len, size, written, freed, hshape, -⟩ := logmsg_printf_shape _ _ _ _ _ _ hr
      rw [hshape]
      simp [h]
    · simp only [LOGMSG_LEVEL_PRINTF, h, if_false, Option.some.injEq] at hr
      rw [← hr]
      simp [h]

theorem gated_macro_calls_iff_enabled_witness :
    LOGMSG_INFO_PRINTF ⟨"test-logmsg.cpp".toList, 75, "main".toList⟩ sample_open_state
        sample_env "%s %f".toList [] = some (sample_open_state, []) ∧
    LOGMSG_INFO_PRINTF ⟨"test-logmsg.cpp".toList, 75, "main".toList⟩
        { sample_open_state with logmsg_level := LOGMSG_LEVEL_DEBUG } sample_env
        "%s %f".toList [] =
      logmsg_printf { sample_open_state with logmsg_level := LOGMSG_LEVEL_DEBUG } sample_env
        LOGMSG_LEVEL_INFO ("%s:%d:%s() ".toList ++ "%s %f".toList)
        [Arg.str "test-logmsg.cpp".toList, Arg.int 75, Arg.str "main".toList] ∧
    (Event.get_utc_time ∈ ([] : List Event) ↔
      sample_open_state.logmsg_level ≥ LOGMSG_LEVEL_INFO) :=
  ⟨(gated_macro_calls_iff_enabled (LOGMSG_LEVEL_INFO, LOGMSG_INFO_PRINTF)
      (by simp [gated_macros])
      ⟨"test-logmsg.cpp".toList, 75, "main".toList⟩ sample_open_state sample_env
      "%s %f".toList []).2.1 (by decide),
    (gated_macro_calls_iff_enabled (LOGMSG_LEVEL_INFO, LOGMSG_INFO_PRINTF)
      (by simp [gated_macros])
      ⟨"test-logmsg.cpp".toList, 75, "main".toList⟩
      { sample_open_state with logmsg_level := LOGMSG_LEVEL_DEBUG } sample_env
      "%s %f".toList []).1 (by decide),
    (gated_macro_calls_iff_enabled (LOGMSG_LEVEL_INFO, LOGMSG_INFO_PRINTF)
      (by simp [gated_macros])
      ⟨"test-logmsg.cpp".toList, 75, "main".toList⟩ sample_open_state sample_env
      "%s %f".toList []).2.2 (sample_open_state, []) (by decide)⟩
/-! ## C4: `logmsg_printf` itself is not gated -/

/-- C4, counterexample: with the file open on descriptor 3 and the threshold
`NONE`, which is below `INFO`, the call `logmsg_printf(LOGMSG_LEVEL_INFO, ...)`
still writes its entry. -/
theorem logmsg_printf_ignores_threshold :
    sample_open_state.logmsg_level = LOGMSG_LEVEL_NONE ∧
    ¬ (sample_open_state.logmsg_level ≥ LOGMSG_LEVEL_INFO) ∧
    logmsg_printf sample_open_state sample_env LOGMSG_LEVEL_INFO "%s %f".toList
        [Arg.str "pi".toList, Arg.dbl 4614256650576692846] =
      some (sample_open_state,
        [Event.get_utc_time, Event.get_hostname, Event.get_process_and_thread_ids,
          Event.malloc 75, Event.write 3 sample_entry 74, Event.free]) := by
  decide

/-- C4, amended: `logmsg_printf` does not read `logmsg_level`.  With a
destination open, a call at any severity writes one entry whatever the threshold
is, and the events of the call are the same for every threshold.  The test
`logmsg_level >= LEVEL` is made by the caller: a call through the macro
`LOGMSG_<LEVEL>_PRINTF` writes an entry if and only if the threshold is at least
`LEVEL`. -/
theorem logmsg_printf_writes_at_every_threshold (s : LogState) (env : Env) (severity : Int)
    (format : List Char) (args : List Arg) (hopen : s.logger_fd ≥ 0)
    (hmsg : (message_block env format args).1 < INT_MAX)
    (hprog : env.program_invocation_short_name.length < 2 ^ 32)
    (hhost : (env.gethostname (64 + 1)).2.length ≤ 64) :
    (∃ (size : Nat) (bytes : List Char) (freed : List Event),
      ∀ threshold : Int, ∃ s1 : LogState,
        logmsg_printf { s with logmsg_level := threshold } env severity format args =
          some (s1, [Event.get_utc_time, Event.get_hostname, Event.get_process_and_thread_ids,
            Event.malloc size, Event.write s.logger_fd bytes bytes.length] ++ freed)) ∧
    (∀ (m : Int × (CallSite → LogState → Env → List Char → List Arg →
          Option (LogState × List Event))) (site : CallSite) (r : LogState × List Event),
      m ∈ gated_macros → m.2 site s env format args = some r →
        ((∃ bytes count, Event.write s.logger_fd bytes count ∈ r.2) ↔
          s.logmsg_level ≥ m.1)) := by
  constructor
  · obtain ⟨utc, host, ids, msg, b, hg⟩ := gathered_exists env format args
    have hml : (msg.length : Int) < INT_MAX := by
      have := hg.2.2.2.1
      rw [this] at hmsg
      exact hmsg
    cases hmf : env.malloc_fails with
    | true =>
      refine ⟨(log_entry utc (logmsg_level_to_string severity) host
        env.program_invocation_short_name ids msg).length + 1, malloc_error_text, [],
        fun threshold => ⟨write_block { s with logmsg_level := threshold } env
          malloc_error_text.length, ?_⟩⟩
      rw [logmsg_printf_of_gathered _ env severity format args utc host ids msg b hg hml hprog
        hhost, hmf]
      simp only [if_true, printf_events]
      rw [if_pos (show ({ s with logmsg_level := threshold } : LogState).logger_fd ≥ 0 from hopen)]
      simp
    | false =>
      refine ⟨(log_entry utc (logmsg_level_to_string severity) host
        env.program_invocation_short_name ids msg).length + 1,
        log_entry utc (logmsg_level_to_string severity) host
        env.program_invocation_short_name ids msg, [Event.free],
        fun threshold => ⟨write_block { s with logmsg_level := threshold } env
          (log_entry utc (logmsg_level_to_string severity) host
            env.program_invocation_short_name ids msg).length, ?_⟩⟩
      rw [logmsg_printf_of_gathered _ env severity format args utc host ids msg b hg hml hprog
        hhost, hmf]
      simp only [Bool.false_eq_true, if_false, printf_events]
      rw [if_pos (show ({ s with logmsg_level := threshold } : LogState).logger_fd ≥ 0 from hopen)]
      simp
  · intro m site r hm hr
    obtain ⟨hdef, -, -⟩ := gated_macros_mem m hm
    rw [hdef] at hr
    by_cases h : s.logmsg_level ≥ m.1
    · simp only [LOGMSG_LEVEL_PRINTF, LOGMSG_PRINTF, h, if_true] at hr
      obtain ⟨len, size, written, freed, hshape, -, hw, -⟩ := logmsg_printf_shape _ _ _ _ _ _ hr
      obtain ⟨bytes, hb⟩ := hw hopen
      rw [hshape, hb]
      simp only [h, iff_true]
      exact ⟨bytes, len, by simp⟩
    · simp only [LOGMSG_LEVEL_PRINTF, h, if_false, Option.some.injEq] at hr
      rw [← hr]
      simp [h]

theorem logmsg_printf_writes_at_every_threshold_witness :
    (∃ (size : Nat) (bytes : List Char) (freed : List Event),
      ∀ threshold : Int, ∃ s1 : LogState,
        logmsg_printf { sample_open_state with logmsg_level := threshold } sample_env
            LOGMSG_LEVEL_INFO "%s %f".toList [] =
          some (s1, [Event.get_utc_time, Event.get_hostname, Event.get_process_and_thread_ids,
            Event.malloc size, Event.write sample_open_state.logger_fd bytes bytes.length] ++
              freed)) ∧
    ((∃ bytes count, Event.write sample_open_state.logger_fd bytes count ∈
        (sample_open_state, ([] : List Event)).2) ↔
      sample_open_state.logmsg_level ≥ (LOGMSG_LEVEL_INFO, LOGMSG_INFO_PRINTF).1) :=
  ⟨(logmsg_printf_writes_at_every_threshold sample_open_state sample_env LOGMSG_LEVEL_INFO
      "%s %f".toList [] (by decide) (by decide) (by decide) (by decide)).1,
    (logmsg_printf_writes_at_every_threshold sample_open_state sample_env LOGMSG_LEVEL_INFO
      "%s %f".toList [] (by decide) (by decide) (by decide) (by decide)).2
      (LOGMSG_LEVEL_INFO, LOGMSG_INFO_PRINTF) ⟨"test-logmsg.cpp".toList, 75, "main".toList⟩
      (sample_open_state, []) (by simp [gated_macros]) (by decide)⟩
/-! ## C5 to C8: opening the destination -/

theorem write_block_frame (s : LogState) (env : Env) (len : Nat) :
    (write_block s env len).logger_fd = s.logger_fd ∧
    (write_block s env len).logmsg_level = s.logmsg_level ∧
    (write_block s env len).num_open_failures = s.num_open_failures ∧
    (write_block s env len).num_conn_failures = s.num_conn_failures := by
  unfold write_block
  split
  · split <;> simp
  · simp

theorem logmsg_open_file_already_open (s : LogState) (file_spec : List Char)
    (os_open : Option Nat) (h : s.logger_fd ≥ 0) :
    logmsg_open_file s file_spec os_open =
      ({ s with num_open_failures := uint64_incr s.num_open_failures }, -1) := by
  simp [logmsg_open_file, h]

theorem logmsg_open_file_os_failure (s : LogState) (file_spec : List Char)
    (h : s.logger_fd < 0) :
    logmsg_open_file s file_spec none =
      ({ s with logger_fd := -1, num_open_failures := uint64_incr s.num_open_failures }, -1) := by
  simp [logmsg_open_file, not_le.mpr h]

theorem logmsg_open_file_success (s : LogState) (file_spec : List Char) (fd : Nat)
    (h : s.logger_fd < 0) :
    logmsg_open_file s file_spec (some fd) = ({ s with logger_fd := (fd : Int) }, 0) := by
  have hfd : ¬ ((fd : Int) < 0) := by omega
  simp [logmsg_open_file, not_le.mpr h, hfd]

theorem step_logger_fd (s : LogState) (op : Op) (r : LogState × Option Int)
    (h : op.step s = some r) :
    (is_successful_open (op, r.2, r.1) = false ∧
      (r.1.logger_fd = s.logger_fd ∨ (s.logger_fd < 0 ∧ r.1.logger_fd = -1))) ∨
    (is_successful_open (op, r.2, r.1) = true ∧ s.logger_fd < 0 ∧
      ∃ file_spec fd, op = Op.open_file file_spec (some fd) ∧ r.1.logger_fd = (fd : Int)) := by
  cases op with
  | open_file file_spec os_open =>
    simp only [Op.step, Option.some.injEq] at h
    subst h
    by_cases hfd : s.logger_fd ≥ 0
    · left
      rw [logmsg_open_file_already_open s file_spec os_open hfd]
      exact ⟨rfl, Or.inl rfl⟩
    · have hneg : s.logger_fd < 0 := not_le.mp hfd
      cases os_open with
      | none =>
        left
        rw [logmsg_open_file_os_failure s file_spec hneg]
        exact ⟨rfl, Or.inr ⟨hneg, rfl⟩⟩
      | some fd =>
        right
        rw [logmsg_open_file_success s file_spec fd hneg]
        exact ⟨rfl, hneg, file_spec, fd, rfl, rfl⟩
  | open_conn server_spec =>
    simp only [Op.step, Option.some.injEq] at h
    subst h
    left
    exact ⟨rfl, Or.inl rfl⟩
  | printf env level format args =>
    simp only [Op.step, Option.map_eq_some'] at h
    obtain ⟨res, hres, hr⟩ := h
    subst hr
    obtain ⟨len, size, written, freed, hshape, -⟩ := logmsg_printf_shape _ _ _ _ _ _ hres
    left
    rw [hshape]
    exact ⟨rfl, Or.inl (write_block_frame s env len).1⟩
  | set_level level =>
    simp only [Op.step, Option.some.injEq] at h
    subst h
    left
    exact ⟨rfl, Or.inl rfl⟩

theorem reachable_logger_fd (s : LogState) (h : Reachable s) :
    s.logger_fd = -1 ∨ 0 ≤ s.logger_fd := by
  induction h with
  | init => left; rfl
  | step s op r _ hstep ih =>
    rcases step_logger_fd s op r hstep with ⟨-, h1 | ⟨-, h1⟩⟩ | ⟨-, -, _, fd, -, h1⟩
    · rw [h1]; exact ih
    · left; exact h1
    · right; rw [h1]; omega

theorem run_open_state (ops : List Op) : ∀ (s : LogState) (trace : List (Op × Option Int × LogState)),
    0 ≤ s.logger_fd → run s ops = some trace →
      ∀ e ∈ trace, e.2.2.logger_fd = s.logger_fd ∧ is_successful_open e = false := by
  induction ops with
  | nil =>
    intro s trace _ h e he
    simp only [run, Option.some.injEq] at h
    subst h
    simp at he
  | cons op ops ih =>
    intro s trace hs h e he
    simp only [run, Option.bind_eq_some, Option.map_eq_some'] at h
    obtain ⟨r, hstep, rest, hrest, htrace⟩ := h
    subst htrace
    have hr : is_successful_open (op, r.2, r.1) = false ∧ r.1.logger_fd = s.logger_fd := by
      rcases step_logger_fd s op r hstep with ⟨h0, h1 | ⟨h1, -⟩⟩ | ⟨-, h1, -⟩
      · exact ⟨h0, h1⟩
      · omega
      · omega
    rcases List.mem_cons.mp he with rfl | hmem
    · exact ⟨hr.2, hr.1⟩
    · have := ih r.1 rest (by rw [hr.2]; exact hs) hrest e hmem
      rw [hr.2] at this
      exact this

theorem run_open_once (ops : List Op) : ∀ (s : LogState) (trace : List (Op × Option Int × LogState)),
    run s ops = some trace →
      (trace.filter is_successful_open).length ≤ 1 ∧
      ∀ pre e post, trace = pre ++ e :: post → is_successful_open e = true →
        (∃ file_spec fd, e.1 = Op.open_file file_spec (some fd) ∧ e.2.1 = some 0 ∧
          e.2.2.logger_fd = (fd : Int)) ∧
        0 ≤ e.2.2.logger_fd ∧ ∀ e2 ∈ post, e2.2.2.logger_fd = e.2.2.logger_fd := by
  induction ops with
  | nil =>
    intro s trace h
    simp only [run, Option.some.injEq] at h
    subst h
    refine ⟨by simp, ?_⟩
    intro pre e post hsplit
    simp at hsplit
  | cons op ops ih =>
    intro s trace h
    simp only [run, Option.bind_eq_some, Option.map_eq_some'] at h
    obtain ⟨r, hstep, rest, hrest, htrace⟩ := h
    subst htrace
    obtain ⟨ihc, ihs⟩ := ih r.1 rest hrest
    have hhead : is_successful_open (op, r.2, r.1) = true →
        (∃ file_spec fd, op = Op.open_file file_spec (some fd) ∧ r.2 = some 0 ∧
          r.1.logger_fd = (fd : Int)) ∧ 0 ≤ r.1.logger_fd := by
      intro hsucc
      rcases step_logger_fd s op r hstep with ⟨h0, -⟩ | ⟨-, -, file_spec, fd, hop, hfd⟩
      · rw [h0] at hsucc; exact absurd hsucc (by decide)
      · refine ⟨⟨file_spec, fd, hop, ?_, hfd⟩, by rw [hfd]; omega⟩
        subst hop
        rcases hr2 : r.2 with _ | v
        · rw [hr2] at hsucc; simp [is_successful_open] at hsucc
        · rw [hr2] at hsucc
          by_cases hv : v = 0
          · rw [hv]
          · exfalso
            revert hsucc
            unfold is_successful_open
            split
            · rename_i heq
              simp only [Prod.mk.injEq, Option.some.injEq] at heq
              exact absurd heq.2.1 hv
            · simp
    constructor
    · by_cases hsucc : is_successful_open (op, r.2, r.1) = true
      · have hopen := (hhead hsucc).2
        have hnone : rest.filter is_successful_open = [] := by
          rw [List.filter_eq_nil_iff]
          intro e he
          simp [(run_open_state ops r.1 rest hopen hrest e he).2]
        simp [List.filter_cons, hsucc, hnone]
      · simp only [List.filter_cons, hsucc]
        exact ihc
    · intro pre e post hsplit hsucc
      cases pre with
      | nil =>
        simp only [List.nil_append, List.cons.injEq] at hsplit
        obtain ⟨he, hpost⟩ := hsplit
        subst he hpost
        obtain ⟨h1, h2⟩ := hhead hsucc
        refine ⟨h1, h2, ?_⟩
        intro e2 he2
        exact (run_open_state ops r.1 rest h2 hrest e2 he2).1
      | cons p pre =>
        simp only [List.cons_append, List.cons.injEq] at hsplit
        exact ihs pre e post hsplit.2 hsucc

/-- C5: `logmsg_open_file` returns 0 if and only if no destination is open at the
call (`logger_fd < 0`) and `open` answers a descriptor; when a destination is
already open, and when `open` fails, it returns the same value `-1`. -/
theorem logmsg_open_file_returns_zero_iff (s : LogState) (file_spec : List Char)
    (os_open : Option Nat) :
    ((logmsg_open_file s file_spec os_open).2 = 0 ↔
      (s.logger_fd < 0 ∧ ∃ fd, os_open = some fd)) ∧
    (s.logger_fd ≥ 0 → (logmsg_open_file s file_spec os_open).2 = -1) ∧
    (os_open = none → (logmsg_open_file s file_spec os_open).2 = -1) := by
  by_cases hfd : s.logger_fd ≥ 0
  · rw [logmsg_open_file_already_open s file_spec os_open hfd]
    refine ⟨?_, fun _ => rfl, fun _ => rfl⟩
    constructor
    · intro h; simp at h
    · intro h; omega
  · have hneg : s.logger_fd < 0 := not_le.mp hfd
    cases os_open with
    | none =>
      rw [logmsg_open_file_os_failure s file_spec hneg]
      refine ⟨?_, fun _ => rfl, fun _ => rfl⟩
      constructor
      · intro h; simp at h
      · intro h; obtain ⟨-, fd, hfd2⟩ := h; exact absurd hfd2 (by simp)
    | some fd =>
      rw [logmsg_open_file_success s file_spec fd hneg]
      refine ⟨?_, fun h => absurd h hfd, fun h => absurd h (by simp)⟩
      constructor
      · intro _; exact ⟨hneg, fd, rfl⟩
      · intro _; rfl

theorem logmsg_open_file_returns_zero_iff_witness :
    (logmsg_open_file sample_open_state "log.txt".toList (some 4)).2 = -1 ∧
    (logmsg_open_file LogState.init "log.txt".toList none).2 = -1 ∧
    ((logmsg_open_file LogState.init "log.txt".toList (some 3)).2 = 0 ↔
      (LogState.init.logger_fd < 0 ∧ ∃ fd, some 3 = some fd)) :=
  ⟨(logmsg_open_file_returns_zero_iff sample_open_state "log.txt".toList (some 4)).2.1
      (by decide),
    (logmsg_open_file_returns_zero_iff LogState.init "log.txt".toList none).2.2 rfl,
    (logmsg_open_file_returns_zero_iff LogState.init "log.txt".toList (some 3)).1⟩

/-- C6: in a state the program can reach, a call of `logmsg_open_file` that fails
(the destination was already open, or `open` failed) adds one to the open-failure
counter, as a `uint64_t`, hence exactly one below `2 ^ 64 - 1`, and changes
nothing else: the handle, the threshold, the connection-failure counter and the
write-failure counter are the same.  After a first successful open on `fd`, a
second call fails, the handle is still `fd`, and a later `logmsg_printf` writes to
`fd`. -/
theorem logmsg_open_file_failure_frame (s : LogState) (hs : Reachable s) :
    (∀ (file_spec : List Char) (os_open : Option Nat),
      (logmsg_open_file s file_spec os_open).2 ≠ 0 →
        (logmsg_open_file s file_spec os_open).1 =
            { s with num_open_failures := uint64_incr s.num_open_failures } ∧
          (s.num_open_failures + 1 < 2 ^ 64 →
            (logmsg_open_file s file_spec os_open).1.num_open_failures =
              s.num_open_failures + 1)) ∧
    (∀ (file_spec file_spec2 : List Char) (fd : Nat) (os_open2 : Option Nat),
      s.logger_fd < 0 →
        (logmsg_open_file s file_spec (some fd)).2 = 0 ∧
        (logmsg_open_file (logmsg_open_file s file_spec (some fd)).1 file_spec2 os_open2).2 = -1 ∧
        (logmsg_open_file (logmsg_open_file s file_spec (some fd)).1 file_spec2
          os_open2).1.logger_fd = (fd : Int) ∧
        ∀ (env : Env) (level : Int) (format : List Char) (args : List Arg)
          (r : LogState × List Event),
          logmsg_printf (logmsg_open_file (logmsg_open_file s file_spec (some fd)).1 file_spec2
            os_open2).1 env level format args = some r →
          ∃ (size len : Nat) (bytes : List Char) (freed : List Event),
            r.2 = [Event.get_utc_time, Event.get_hostname, Event.get_process_and_thread_ids,
              Event.malloc size, Event.write (fd : Int) bytes len] ++ freed) := by
  constructor
  · intro file_spec os_open hfail
    have hincr : s.num_open_failures + 1 < 2 ^ 64 →
        uint64_incr s.num_open_failures = s.num_open_failures + 1 := by
      intro h
      exact Nat.mod_eq_of_lt h
    by_cases hfd : s.logger_fd ≥ 0
    · rw [logmsg_open_file_already_open s file_spec os_open hfd]
      exact ⟨rfl, hincr⟩
    · have hneg : s.logger_fd < 0 := not_le.mp hfd
      have hm1 : s.logger_fd = -1 := by
        rcases reachable_logger_fd s hs with h | h
        · exact h
        · omega
      cases os_open with
      | none =>
        rw [logmsg_open_file_os_failure s file_spec hneg]
        refine ⟨?_, hincr⟩
        rw [← hm1]
      | some fd =>
        rw [logmsg_open_file_success s file_spec fd hneg] at hfail
        exact absurd rfl hfail
  · intro file_spec file_spec2 fd os_open2 hneg
    rw [logmsg_open_file_success s file_spec fd hneg]
    have hopen : ({ s with logger_fd := (fd : Int) } : LogState).logger_fd ≥ 0 := by
      show (fd : Int) ≥ 0
      omega
    rw [logmsg_open_file_already_open _ file_spec2 os_open2 hopen]
    refine ⟨rfl, rfl, rfl, ?_⟩
    intro env level format args r hr
    obtain ⟨len, size, written, freed, hshape, -, hw, -⟩ := logmsg_printf_shape _ _ _ _ _ _ hr
    obtain ⟨bytes, hb⟩ := hw hopen
    refine ⟨size, len, bytes, freed, ?_⟩
    rw [hshape, hb]
    rfl

theorem logmsg_open_file_failure_frame_witness :
    ((logmsg_open_file sample_open_state "log.txt".toList (some 4)).1 =
        { sample_open_state with
          num_open_failures := uint64_incr sample_open_state.num_open_failures } ∧
      (logmsg_open_file sample_open_state "log.txt".toList (some 4)).1.num_open_failures =
        sample_open_state.num_open_failures + 1) ∧
    (logmsg_open_file LogState.init "log.txt".toList (some 3)).2 = 0 ∧
    (logmsg_open_file (logmsg_open_file LogState.init "log.txt".toList (some 3)).1
      "other.txt".toList (some 4)).2 = -1 ∧
    (logmsg_open_file (logmsg_open_file LogState.init "log.txt".toList (some 3)).1
      "other.txt".toList (some 4)).1.logger_fd = ((3 : Nat) : Int) :=
  ⟨⟨((logmsg_open_file_failure_frame sample_open_state
        (Reachable.step LogState.init (Op.open_file "log.txt".toList (some 3))
          (sample_open_state, some 0) Reachable.init (by decide))).1
        "log.txt".toList (some 4) (by decide)).1,
      ((logmsg_open_file_failure_frame sample_open_state
        (Reachable.step LogState.init (Op.open_file "log.txt".toList (some 3))
          (sample_open_state, some 0) Reachable.init (by decide))).1
        "log.txt".toList (some 4) (by decide)).2 (by decide)⟩,
    ((logmsg_open_file_failure_frame LogState.init Reachable.init).2 "log.txt".toList
      "other.txt".toList 3 (some 4) (by decide)).1,
    ((logmsg_open_file_failure_frame LogState.init Reachable.init).2 "log.txt".toList
      "other.txt".toList 3 (some 4) (by decide)).2.1,
    ((logmsg_open_file_failure_frame LogState.init Reachable.init).2 "log.txt".toList
      "other.txt".toList 3 (some 4) (by decide)).2.2.1⟩

/-- C7: in every run of operations (`logmsg_open_file`, `logmsg_open_conn`,
`logmsg_printf`, assignments to `logmsg_level`) from the initial state, at most
one call of `logmsg_open_file` returns 0; that call had `open` answer a
descriptor, and from then on the handle is non-negative and equal to that
descriptor after every later operation: nothing leads back to the unopened state. -/
theorem open_file_succeeds_at_most_once (ops : List Op)
    (trace : List (Op × Option Int × LogState)) (h : run LogState.init ops = some trace) :
    (trace.filter is_successful_open).length ≤ 1 ∧
    ∀ pre e post, trace = pre ++ e :: post → is_successful_open e = true →
      (∃ file_spec fd, e.1 = Op.open_file file_spec (some fd) ∧ e.2.1 = some 0 ∧
        e.2.2.logger_fd = (fd : Int)) ∧
      0 ≤ e.2.2.logger_fd ∧ ∀ e2 ∈ post, e2.2.2.logger_fd = e.2.2.logger_fd :=
  run_open_once ops LogState.init trace h

theorem open_file_succeeds_at_most_once_witness :
    (sample_trace.filter is_successful_open).length ≤ 1 ∧
    0 ≤ ({ LogState.init with logger_fd := 3, num_open_failures := 1 } : LogState).logger_fd ∧
    ∀ e2 ∈ sample_trace_tail, e2.2.2.logger_fd =
      ({ LogState.init with logger_fd := 3, num_open_failures := 1 } : LogState).logger_fd :=
  ⟨(open_file_succeeds_at_most_once sample_ops sample_trace (by rfl)).1,
    ((open_file_succeeds_at_most_once sample_ops sample_trace (by rfl)).2
      [(Op.open_file "log.txt".toList none, some (-1),
        { LogState.init with num_open_failures := 1 })]
      (Op.open_file "log.txt".toList (some 3), some 0,
        { LogState.init with logger_fd := 3, num_open_failures := 1 })
      sample_trace_tail rfl rfl).2⟩

/-- C8, counterexample: after a successful `logmsg_open_file` on descriptor 3,
`logmsg_open_conn` returns 0, not `-1`, and the open-failure counter keeps its
value. -/
theorem logmsg_open_conn_not_guarded :
    (logmsg_open_file LogState.init "log.txt".toList (some 3)).2 = 0 ∧
    (logmsg_open_file LogState.init "log.txt".toList (some 3)).1.logger_fd = 3 ∧
    (logmsg_open_conn (logmsg_open_file LogState.init "log.txt".toList (some 3)).1
      "server".toList).2 = 0 ∧
    (logmsg_open_conn (logmsg_open_file LogState.init "log.txt".toList (some 3)).1
      "server".toList).1.num_open_failures =
      (logmsg_open_file LogState.init "log.txt".toList (some 3)).1.num_open_failures := by
  decide

/-- C8, amended: while a destination is open, a second `logmsg_open_file` is a
failure: it returns `-1`, adds one to the open-failure counter (as a `uint64_t`)
and keeps the handle and everything else.  `logmsg_open_conn`, whose body is
still to be supplied, returns 0 in every state and changes nothing: it neither
replaces nor closes the destination, and it counts no failure. -/
theorem second_open_while_opened (s : LogState) (hopen : s.logger_fd ≥ 0)
    (file_spec server_spec : List Char) (os_open : Option Nat) :
    (logmsg_open_file s file_spec os_open).2 = -1 ∧
    (logmsg_open_file s file_spec os_open).1 =
      { s with num_open_failures := uint64_incr s.num_open_failures } ∧
    (logmsg_open_file s file_spec os_open).1.logger_fd = s.logger_fd ∧
    (logmsg_open_conn s server_spec).2 = 0 ∧
    (logmsg_open_conn s server_spec).1 = s := by
  rw [logmsg_open_file_already_open s file_spec os_open hopen]
  exact ⟨rfl, rfl, rfl, rfl, rfl⟩

theorem second_open_while_opened_witness :
    (logmsg_open_file sample_open_state "other.txt".toList (some 4)).2 = -1 ∧
    (logmsg_open_file sample_open_state "other.txt".toList (some 4)).1 =
      { sample_open_state with
        num_open_failures := uint64_incr sample_open_state.num_open_failures } ∧
    (logmsg_open_file sample_open_state "other.txt".toList (some 4)).1.logger_fd =
      sample_open_state.logger_fd ∧
    (logmsg_open_conn sample_open_state "server".toList).2 = 0 ∧
    (logmsg_open_conn sample_open_state "server".toList).1 = sample_open_state :=
  second_open_while_opened sample_open_state (by decide) "other.txt".toList "server".toList
    (some 4)
/-! ## C9 and C10: the write block -/

theorem size_t_eq_iff (w : Int) (len : Nat) (hlo : -(2 ^ 63) ≤ w) (hhi : w < 2 ^ 63)
    (hlen : len < 2 ^ 63) : size_t w = len ↔ w = (len : Int) := by
  unfold size_t SIZE_MOD
  constructor
  · intro h
    have h2 : (((w % ((2 ^ 64 : Nat) : Int)).toNat : Nat) : Int) = (len : Int) := by rw [h]
    rw [Int.toNat_of_nonneg (Int.emod_nonneg _ (by norm_num))] at h2
    norm_num at h2
    omega
  · intro h
    subst h
    have := size_t_natCast len (by unfold SIZE_MOD; omega)
    unfold size_t SIZE_MOD at this
    exact this

/-- C9: when no destination is open (`logger_fd < 0`), `logmsg_printf` returns
with the state it was called in, so the handle, the threshold and the three
counters are the same, and among its events there is no write: the context is
gathered, the entry allocated and, when allocated, freed, and that is all.  This
holds for every level, format and environment within the sizes of the machine
(host name within its array, program name shorter than `2 ^ 32`, measured message
shorter than `INT_MAX`). -/
theorem logmsg_printf_unopened_discards (s : LogState) (env : Env) (level : Int)
    (format : List Char) (args : List Arg) (hclosed : s.logger_fd < 0)
    (hmsg : (message_block env format args).1 < INT_MAX)
    (hprog : env.program_invocation_short_name.length < 2 ^ 32)
    (hhost : (env.gethostname (64 + 1)).2.length ≤ 64) :
    ∃ size : Nat,
      logmsg_printf s env level format args =
        some (s, [Event.get_utc_time, Event.get_hostname, Event.get_process_and_thread_ids,
          Event.malloc size] ++ (if env.malloc_fails then [] else [Event.free])) := by
  obtain ⟨utc, host, ids, msg, b, hg⟩ := gathered_exists env format args
  have hml : (msg.length : Int) < INT_MAX := by
    have := hg.2.2.2.1
    rw [this] at hmsg
    exact hmsg
  have hfd : ¬ (s.logger_fd ≥ 0) := not_le.mpr hclosed
  refine ⟨(log_entry utc (logmsg_level_to_string level) host
    env.program_invocation_short_name ids msg).length + 1, ?_⟩
  rw [logmsg_printf_of_gathered s env level format args utc host ids msg b hg hml hprog hhost]
  cases hmf : env.malloc_fails <;> simp [printf_events, write_block, hfd]

theorem logmsg_printf_unopened_discards_witness :
    ∃ size : Nat,
      logmsg_printf LogState.init sample_env LOGMSG_LEVEL_INFO "%s %f".toList [] =
        some (LogState.init,
          [Event.get_utc_time, Event.get_hostname, Event.get_process_and_thread_ids,
            Event.malloc size] ++ (if sample_env.malloc_fails then [] else [Event.free])) :=
  logmsg_printf_unopened_discards LogState.init sample_env LOGMSG_LEVEL_INFO "%s %f".toList []
    (by decide) (by decide) (by decide) (by decide)

/-- C10: when a destination is open, a call of `logmsg_printf` makes exactly one
`write`, on the handle, of the whole entry (the assembled line, or the static
text when `malloc` failed) with the length of that entry as count; there is no
second write, whatever the first reports.  The write-failure counter goes up by
one, as a `uint64_t`, hence by exactly one below `2 ^ 64 - 1`, when the value
`write` returns differs from the count (a short write, or `-1`), and keeps its
value when they are equal; the handle, the threshold and the other two counters
are unchanged in both cases. -/
theorem logmsg_printf_single_write (s : LogState) (env : Env) (level : Int)
    (format : List Char) (args : List Arg) (hopen : s.logger_fd ≥ 0)
    (hmsg : (message_block env format args).1 < INT_MAX)
    (hprog : env.program_invocation_short_name.length < 2 ^ 32)
    (hhost : (env.gethostname (64 + 1)).2.length ≤ 64)
    (hwlo : -(2 ^ 63) ≤ env.write) (hwhi : env.write < 2 ^ 63) :
    (∃ (utc host ids msg : List Char) (is_error_text : Bool) (entry : List Char) (size : Nat),
      Gathered env format args utc host ids msg is_error_text ∧
      entry = (if env.malloc_fails then malloc_error_text
        else log_entry utc (logmsg_level_to_string level) host
          env.program_invocation_short_name ids msg) ∧
      logmsg_printf s env level format args =
        some (if env.write ≠ (entry.length : Int) then
            { s with num_write_failures := uint64_incr s.num_write_failures }
          else s,
          [Event.get_utc_time, Event.get_hostname, Event.get_process_and_thread_ids,
            Event.malloc size, Event.write s.logger_fd entry entry.length] ++
            (if env.malloc_fails then [] else [Event.free]))) ∧
    (s.num_write_failures + 1 < 2 ^ 64 →
      uint64_incr s.num_write_failures = s.num_write_failures + 1) := by
  obtain ⟨utc, host, ids, msg, b, hg⟩ := gathered_exists env format args
  have hml : (msg.length : Int) < INT_MAX := by
    have := hg.2.2.2.1
    rw [this] at hmsg
    exact hmsg
  obtain ⟨hub, hhb, hib, -⟩ := gathered_bounds env format args utc host ids msg b hg hhost
  have hlvl := logmsg_level_to_string_length level
  have hL : (log_entry utc (logmsg_level_to_string level) host
      env.program_invocation_short_name ids msg).length < 2 ^ 63 := by
    rw [log_entry_length]
    have : (msg.length : Int) < 2 ^ 31 - 1 := hml
    omega
  have hM : malloc_error_text.length < 2 ^ 63 := by decide
  refine ⟨⟨utc, host, ids, msg, b, _, (log_entry utc (logmsg_level_to_string level) host
    env.program_invocation_short_name ids msg).length + 1, hg, rfl, ?_⟩,
    fun h => Nat.mod_eq_of_lt h⟩
  rw [logmsg_printf_of_gathered s env level format args utc host ids msg b hg hml hprog hhost]
  cases hmf : env.malloc_fails with
  | true =>
    simp only [if_true, printf_events, hopen, write_block, ne_eq,
      size_t_eq_iff env.write _ hwlo hwhi hM]
    simp
  | false =>
    simp only [Bool.false_eq_true, if_false, if_true, printf_events, hopen, write_block, ne_eq,
      size_t_eq_iff env.write _ hwlo hwhi hL]
    simp

theorem logmsg_printf_single_write_witness :
    (∃ (utc host ids msg : List Char) (is_error_text : Bool) (entry : List Char) (size : Nat),
      Gathered { sample_env with write := -1 } "%s %f".toList [] utc host ids msg
        is_error_text ∧
      entry = (if ({ sample_env with write := -1 } : Env).malloc_fails then malloc_error_text
        else log_entry utc (logmsg_level_to_string LOGMSG_LEVEL_INFO) host
          ({ sample_env with write := -1 } : Env).program_invocation_short_name ids msg) ∧
      logmsg_printf sample_open_state { sample_env with write := -1 } LOGMSG_LEVEL_INFO
          "%s %f".toList [] =
        some (if ({ sample_env with write := -1 } : Env).write ≠ (entry.length : Int) then
            { sample_open_state with
              num_write_failures := uint64_incr sample_open_state.num_write_failures }
          else sample_open_state,
          [Event.get_utc_time, Event.get_hostname, Event.get_process_and_thread_ids,
            Event.malloc size, Event.write sample_open_state.logger_fd entry entry.length] ++
            (if ({ sample_env with write := -1 } : Env).malloc_fails then []
              else [Event.free]))) ∧
    uint64_incr sample_open_state.num_write_failures =
      sample_open_state.num_write_failures + 1 :=
  ⟨(logmsg_printf_single_write sample_open_state { sample_env with write := -1 }
      LOGMSG_LEVEL_INFO "%s %f".toList [] (by decide) (by decide) (by decide) (by decide)
      (by decide) (by decide)).1,
    (logmsg_printf_single_write sample_open_state { sample_env with write := -1 }
      LOGMSG_LEVEL_INFO "%s %f".toList [] (by decide) (by decide) (by decide) (by decide)
      (by decide) (by decide)).2 (by decide)⟩

/-! ## The call in closed form -/

theorem get_hostname_neg_iff (env : Env) :
    ((get_hostname env (64 + 1)).1 < 0 ↔ (env.gethostname (64 + 1)).1 ≠ 0) ∧
      (get_hostname env (64 + 1)).2 = (env.gethostname (64 + 1)).2 := by
  unfold get_hostname
  by_cases h : (env.gethostname (64 + 1)).1 = 0
  · simp [h, strlen]
  · simp [h]

theorem gathered_fields (env : Env) (format : List Char) (args : List Arg) :
    Gathered env format args (utc_time_field env) (hostname_field env) (pid_tid_field env)
      (message_field env format args) (message_block env format args).2 := by
  obtain ⟨utc, hu, -, hu1, hu2⟩ := utc_time_block_eq env
  obtain ⟨host, hh, -, hh1, hh2⟩ := hostname_block_eq env
  obtain ⟨ids, hi, -, hi1, hi2⟩ := pid_tid_block_eq env
  obtain ⟨msg, b, hm, hv, he⟩ := message_block_eq env format args
  have eu : utc_time_field env = utc := by
    unfold utc_time_field
    split
    · rename_i h; exact (hu2 h).symm
    · rename_i h; exact (hu1 (not_lt.mp h)).symm
  have eh : hostname_field env = host := by
    obtain ⟨hiff, h2⟩ := get_hostname_neg_iff env
    unfold hostname_field
    split
    · rename_i h; exact (hh2 (hiff.mp h)).symm
    · rename_i h
      rw [h2]
      have : (env.gethostname (64 + 1)).1 = 0 := by
        by_contra hne
        exact h (hiff.mpr hne)
      exact (hh1 this).symm
  have ei : pid_tid_field env = ids := by
    unfold pid_tid_field
    split
    · rename_i h; exact (hi2 h).symm
    · rename_i h; exact (hi1 (not_lt.mp h)).symm
  have em : message_field env format args = msg := by
    have hm2 := hm
    unfold message_block at hm2
    unfold message_field
    split
    · rename_i h
      rw [if_pos h] at hm2
      have hb : b = true := by
        have := congrArg Prod.snd hm2
        exact this.symm
      exact (he hb).symm
    · rename_i h
      rw [if_neg h] at hm2
      have hb : b = false := by
        have := congrArg Prod.snd hm2
        exact this.symm
      rw [hv hb]
      rfl
  rw [eu, eh, ei, em]
  have hb : (message_block env format args).2 = b := by rw [hm]
  rw [hb]
  exact ⟨hu, hh, hi, hm, hv, he⟩

theorem message_field_length (env : Env) (format : List Char) (args : List Arg) :
    ((message_field env format args).length : Int) = (message_block env format args).1 := by
  have := (gathered_fields env format args).2.2.2.1
  exact (congrArg Prod.fst this).symm

theorem logmsg_printf_closed (s : LogState) (env : Env) (level : Int) (format : List Char)
    (args : List Arg)
    (hmsg : (message_block env format args).1 < INT_MAX)
    (hprog : env.program_invocation_short_name.length < 2 ^ 32)
    (hhost : (env.gethostname (64 + 1)).2.length ≤ 64) :
    logmsg_printf s env level format args =
      some (write_block s env (entry_of env level format args).length,
        printf_events s ((log_entry (utc_time_field env) (logmsg_level_to_string level)
          (hostname_field env) env.program_invocation_short_name (pid_tid_field env)
          (message_field env format args)).length + 1) (entry_of env level format args)
          (!env.malloc_fails)) := by
  have hg := gathered_fields env format args
  have hml : ((message_field env format args).length : Int) < INT_MAX := by
    rw [message_field_length]; exact hmsg
  rw [logmsg_printf_of_gathered s env level format args _ _ _ _ _ hg hml hprog hhost]
  unfold entry_of
  cases env.malloc_fails <;> simp

/-! ## C11 to C15: failures inside a call -/

/-- C11: whichever of the three context steps fail, the call is not aborted and
the entry it hands to the open destination is the documented line in which the
slot of each failed step holds its fixed text (`**** unknown time ****`,
`**** unknown hostname ****`, `**** unknown pid and tid ****`) and the slot of
each other step holds what that step gathered; the level name, the program name,
the separators, the message and the newline are in place in every case.  Stated
for a successful `malloc`, within the sizes of the machine. -/
theorem logmsg_printf_fallback_fields (s : LogState) (env : Env) (level : Int)
    (format : List Char) (args : List Arg) (entry : List Char)
    (hopen : s.logger_fd ≥ 0)
    (hmsg : (message_block env format args).1 < INT_MAX)
    (hprog : env.program_invocation_short_name.length < 2 ^ 32)
    (hhost : (env.gethostname (64 + 1)).2.length ≤ 64)
    (halloc : env.malloc_fails = false)
    (hentry : entry =
      (if (get_utc_time env (32 + 1)).1 < 0 then "**** unknown time ****".toList
        else (get_utc_time env (32 + 1)).2) ++ " ".toList ++
      logmsg_level_to_string level ++ " ".toList ++
      (if (get_hostname env (64 + 1)).1 < 0 then "**** unknown hostname ****".toList
        else (get_hostname env (64 + 1)).2) ++ ":".toList ++
      env.program_invocation_short_name ++ "[".toList ++
      (if (get_process_and_thread_ids env (32 + 1)).1 < 0 then
        "**** unknown pid and tid ****".toList
        else (get_process_and_thread_ids env (32 + 1)).2) ++ "]".toList ++ " ".toList ++
      message_field env format args ++ "\n".toList) :
    logmsg_printf s env level format args =
      some (write_block s env entry.length,
        [Event.get_utc_time, Event.get_hostname, Event.get_process_and_thread_ids,
          Event.malloc (entry.length + 1), Event.write s.logger_fd entry entry.length,
          Event.free]) := by
  have he : entry = entry_of env level format args := by
    rw [hentry]
    simp [entry_of, halloc, log_entry, utc_time_field, hostname_field, pid_tid_field]
  have hl : entry = log_entry (utc_time_field env) (logmsg_level_to_string level)
      (hostname_field env) env.program_invocation_short_name (pid_tid_field env)
      (message_field env format args) := by
    rw [he]
    simp [entry_of, halloc]
  rw [logmsg_printf_closed s env level format args hmsg hprog hhost, ← he, ← hl]
  simp [printf_events, hopen, halloc]

theorem logmsg_printf_fallback_fields_witness :
    logmsg_printf sample_open_state failing_env LOGMSG_LEVEL_INFO "%s %f".toList [] =
        some (write_block sample_open_state failing_env failing_entry.length,
          [Event.get_utc_time, Event.get_hostname, Event.get_process_and_thread_ids,
            Event.malloc (failing_entry.length + 1),
            Event.write sample_open_state.logger_fd failing_entry failing_entry.length,
            Event.free]) ∧
    logmsg_printf sample_open_state { sample_env with clock_gettime := none } LOGMSG_LEVEL_INFO
        "%s %f".toList [] =
      some (write_block sample_open_state { sample_env with clock_gettime := none }
          ("**** unknown time **** INFO box:test-logmsg[4711:4712] pi 3.141590\n".toList).length,
        [Event.get_utc_time, Event.get_hostname, Event.get_process_and_thread_ids,
          Event.malloc
            (("**** unknown time **** INFO box:test-logmsg[4711:4712] pi 3.141590\n".toList).length
              + 1),
          Event.write sample_open_state.logger_fd
            "**** unknown time **** INFO box:test-logmsg[4711:4712] pi 3.141590\n".toList
            ("**** unknown time **** INFO box:test-logmsg[4711:4712] pi 3.141590\n".toList).length,
          Event.free]) :=
  ⟨logmsg_printf_fallback_fields sample_open_state failing_env LOGMSG_LEVEL_INFO
      "%s %f".toList [] failing_entry (by decide) (by decide) (by decide) (by decide)
      (by decide) (by decide),
    logmsg_printf_fallback_fields sample_open_state { sample_env with clock_gettime := none }
      LOGMSG_LEVEL_INFO "%s %f".toList []
      "**** unknown time **** INFO box:test-logmsg[4711:4712] pi 3.141590\n".toList
      (by decide) (by decide) (by decide) (by decide) (by decide) (by decide)⟩

/-- C12: when the measuring pass (`vsnprintf` with capacity 0) returns a negative
value, `message_len` is 34, the length of `**** message formatting error ****`;
that length enters the size passed to `malloc`; the message slot of the entry
holds exactly that text, the other fields being what they are in any call; and
the block that stores the message does not format again: what it stores is the
same whatever the environment, the format and the arguments are. -/
theorem logmsg_printf_format_error (s : LogState) (env : Env) (level : Int)
    (format : List Char) (args : List Arg) (entry : List Char)
    (hopen : s.logger_fd ≥ 0)
    (hfail : (vsnprintf env 0 format args).1 < 0)
    (hprog : env.program_invocation_short_name.length < 2 ^ 32)
    (hhost : (env.gethostname (64 + 1)).2.length ≤ 64)
    (halloc : env.malloc_fails = false)
    (hentry : entry = utc_time_field env ++ " ".toList ++ logmsg_level_to_string level ++
      " ".toList ++ hostname_field env ++ ":".toList ++ env.program_invocation_short_name ++
      "[".toList ++ pid_tid_field env ++ "]".toList ++ " ".toList ++
      "**** message formatting error ****".toList ++ "\n".toList) :
    message_block env format args = (34, true) ∧
    logmsg_printf s env level format args =
      some (write_block s env entry.length,
        [Event.get_utc_time, Event.get_hostname, Event.get_process_and_thread_ids,
          Event.malloc ((utc_time_field env).length + (logmsg_level_to_string level).length +
            (hostname_field env).length + env.program_invocation_short_name.length +
            (pid_tid_field env).length + 34 + 7 + 1),
          Event.write s.logger_fd entry entry.length, Event.free]) ∧
    (∀ (env2 : Env) (format2 : List Char) (args2 : List Arg) (w : List Char × Nat),
      write_message env format args true 34 w = write_message env2 format2 args2 true 34 w) := by
  have hmb : message_block env format args = (34, true) := by
    unfold message_block
    rw [if_pos hfail]
    rfl
  have hmf : message_field env format args = "**** message formatting error ****".toList := by
    unfold message_field
    rw [if_pos hfail]
    rfl
  have hmsg : (message_block env format args).1 < INT_MAX := by
    rw [hmb]; decide
  have hl : entry = log_entry (utc_time_field env) (logmsg_level_to_string level)
      (hostname_field env) env.program_invocation_short_name (pid_tid_field env)
      (message_field env format args) := by
    rw [hentry, hmf]
    simp [log_entry]
  have he : entry = entry_of env level format args := by
    rw [hl]
    simp [entry_of, halloc]
  refine ⟨hmb, ?_, ?_⟩
  · rw [logmsg_printf_closed s env level format args hmsg hprog hhost, ← he, ← hl]
    have hlen : entry.length + 1 = (utc_time_field env).length +
        (logmsg_level_to_string level).length + (hostname_field env).length +
        env.program_invocation_short_name.length + (pid_tid_field env).length + 34 + 7 + 1 := by
      rw [hl, log_entry_length, hmf]
      rfl
    simp [printf_events, hopen, halloc, hlen]
  · intro env2 format2 args2 w
    simp [write_message]

theorem logmsg_printf_format_error_witness :
    message_block { sample_env with format_output := fun _ _ => none } "%s %f".toList [] =
      (34, true) ∧
    logmsg_printf sample_open_state { sample_env with format_output := fun _ _ => none }
        LOGMSG_LEVEL_INFO "%s %f".toList [] =
      some (write_block sample_open_state { sample_env with format_output := fun _ _ => none }
          ("2018-09-22-22:08:42-086858743 INFO box:test-logmsg[4711:4712] " ++
            "**** message formatting error ****\n").toList.length,
        [Event.get_utc_time, Event.get_hostname, Event.get_process_and_thread_ids,
          Event.malloc
            ((utc_time_field { sample_env with format_output := fun _ _ => none }).length +
              (logmsg_level_to_string LOGMSG_LEVEL_INFO).length +
              (hostname_field { sample_env with format_output := fun _ _ => none }).length +
              ({ sample_env with format_output :=
                fun _ _ => none } : Env).program_invocation_short_name.length +
              (pid_tid_field { sample_env with format_output := fun _ _ => none }).length +
              34 + 7 + 1),
          Event.write sample_open_state.logger_fd
            ("2018-09-22-22:08:42-086858743 INFO box:test-logmsg[4711:4712] " ++
              "**** message formatting error ****\n").toList
            ("2018-09-22-22:08:42-086858743 INFO box:test-logmsg[4711:4712] " ++
              "**** message formatting error ****\n").toList.length,
          Event.free]) :=
  ⟨(logmsg_printf_format_error sample_open_state
      { sample_env with format_output := fun _ _ => none } LOGMSG_LEVEL_INFO "%s %f".toList []
      ("2018-09-22-22:08:42-086858743 INFO box:test-logmsg[4711:4712] " ++
        "**** message formatting error ****\n").toList
      (by decide) (by decide) (by decide) (by decide) (by decide) (by decide)).1,
    (logmsg_printf_format_error sample_open_state
      { sample_env with format_output := fun _ _ => none } LOGMSG_LEVEL_INFO "%s %f".toList []
      ("2018-09-22-22:08:42-086858743 INFO box:test-logmsg[4711:4712] " ++
        "**** message formatting error ****\n").toList
      (by decide) (by decide) (by decide) (by decide) (by decide) (by decide)).2.1⟩

theorem logmsg_printf_free_flag (s : LogState) (env : Env) (level : Int) (format : List Char)
    (args : List Arg) (r : LogState × List Event)
    (h : logmsg_printf s env level format args = some r) :
    ∃ (size : Nat) (written : List Event),
      r.2 = [Event.get_utc_time, Event.get_hostname, Event.get_process_and_thread_ids,
        Event.malloc size] ++ written ++ (if env.malloc_fails then [] else [Event.free]) ∧
      (∀ e ∈ written, ∃ fd bytes count, e = Event.write fd bytes count) := by
  unfold logmsg_printf at h
  simp only [Option.bind_eq_bind, Option.bind_eq_some, Option.pure_def, Option.some.injEq] at h
  obtain ⟨utc, -, host, -, ids, -, entry, hentry, written, hw, hr⟩ := h
  have hflag : entry.2.2 = !env.malloc_fails := by
    cases hmf : env.malloc_fails with
    | true =>
      rw [hmf] at hentry
      simp only [if_true, Option.some.injEq] at hentry
      rw [← hentry]
      rfl
    | false =>
      rw [hmf] at hentry
      simp only [Bool.false_eq_true, if_false, Option.map_eq_some'] at hentry
      obtain ⟨a, -, ha⟩ := hentry
      rw [← ha]
      rfl
  subst hr
  refine ⟨(log_message_len utc.1 (strlen (logmsg_level_to_string level)) host.1
    (strlen env.program_invocation_short_name) ids.1 (message_block env format args).1 + 1) %
    SIZE_MOD, written, ?heq, ?hall⟩
  case heq =>
    simp only [hflag]
    cases env.malloc_fails <;> simp
  case hall =>
    intro e he
    by_cases hfd : s.logger_fd ≥ 0
    · rw [if_pos hfd] at hw
      simp only [Option.map_eq_some'] at hw
      obtain ⟨bytes, -, hb⟩ := hw
      rw [← hb] at he
      simp only [List.mem_singleton] at he
      exact ⟨_, _, _, he⟩
    · rw [if_neg hfd] at hw
      simp only [Option.some.injEq] at hw
      rw [← hw] at he
      simp at he

/-- C13: when `malloc` returns `NULL`, the call still returns, for every
environment, level, format and arguments: the assembly is not run, and what is
passed to `write` when the file is open is the static text
`**** heap memory exhausted ****` with count 31, the length of that text.  In
every call `free` is among the events if and only if `malloc` succeeded, so the
static text is never released. -/
theorem logmsg_printf_malloc_failure (s : LogState) (env : Env) (level : Int)
    (format : List Char) (args : List Arg) :
    (env.malloc_fails = true →
      ∃ size : Nat, logmsg_printf s env level format args =
        some (write_block s env 31,
          [Event.get_utc_time, Event.get_hostname, Event.get_process_and_thread_ids,
            Event.malloc size] ++
          (if s.logger_fd ≥ 0 then
            [Event.write s.logger_fd "**** heap memory exhausted ****".toList 31]
          else []))) ∧
    (∀ r, logmsg_printf s env level format args = some r →
      (Event.free ∈ r.2 ↔ env.malloc_fails = false)) := by
  constructor
  · intro hmf
    obtain ⟨utc, host, ids, msg, b, hu, hh, hi, hm, -, -⟩ := gathered_exists env format args
    refine ⟨(log_message_len (utc.length : Int) (strlen (logmsg_level_to_string level))
      (host.length : Int) (strlen env.program_invocation_short_name) (ids.length : Int)
      (msg.length : Int) + 1) % SIZE_MOD, ?_⟩
    unfold logmsg_printf
    simp only [hu, hh, hi, hm, hmf, Option.bind_eq_bind, Option.some_bind, if_true]
    by_cases hfd : s.logger_fd ≥ 0
    · simp only [hfd, if_true]
      have hp : peek (malloc_error_text ++ [NUL]) 0 (strlen malloc_error_text) =
          some malloc_error_text := peek_entry malloc_error_text [NUL]
      rw [hp]
      rfl
    · simp only [hfd, if_false]
      rfl
  · intro r hr
    obtain ⟨size, written, hshape, hw⟩ := logmsg_printf_free_flag s env level format args r hr
    rw [hshape]
    cases hmf : env.malloc_fails with
    | true =>
      simp only [Bool.true_eq_false, iff_false, if_true, List.append_nil, List.mem_append,
        List.mem_cons, List.not_mem_nil, or_false, reduceCtorEq, false_or]
      intro hmem
      obtain ⟨fd, bytes, count, he⟩ := hw _ hmem
      exact absurd he (by simp)
    | false =>
      simp

theorem logmsg_printf_malloc_failure_witness :
    (∃ size : Nat, logmsg_printf sample_open_state { sample_env with malloc_fails := true }
        LOGMSG_LEVEL_INFO "%s %f".toList [] =
      some (write_block sample_open_state { sample_env with malloc_fails := true } 31,
        [Event.get_utc_time, Event.get_hostname, Event.get_process_and_thread_ids,
          Event.malloc size] ++
        (if sample_open_state.logger_fd ≥ 0 then
          [Event.write sample_open_state.logger_fd "**** heap memory exhausted ****".toList 31]
        else []))) ∧
    (Event.free ∈ (sample_open_state,
        [Event.get_utc_time, Event.get_hostname, Event.get_process_and_thread_ids,
          Event.malloc 75, Event.write 3 sample_entry 74, Event.free]).2 ↔
      sample_env.malloc_fails = false) :=
  ⟨(logmsg_printf_malloc_failure sample_open_state { sample_env with malloc_fails := true }
      LOGMSG_LEVEL_INFO "%s %f".toList []).1 rfl,
    (logmsg_printf_malloc_failure sample_open_state sample_env LOGMSG_LEVEL_INFO
      "%s %f".toList []).2 _ (by decide)⟩

/-- C14, the code at the failing input: with the file open on descriptor 3 and
`malloc` returning `NULL`, the 31 bytes passed to `write` are
`**** heap memory exhausted ****`, whose last byte is `*` and not a newline,
whereas the entry built when `malloc` succeeds in the same environment ends with
the newline. -/
theorem malloc_failure_entry_has_no_newline :
    logmsg_printf sample_open_state { sample_env with malloc_fails := true, write := 31 }
        LOGMSG_LEVEL_INFO "%s %f".toList [] =
      some (sample_open_state,
        [Event.get_utc_time, Event.get_hostname, Event.get_process_and_thread_ids,
          Event.malloc 75, Event.write 3 "**** heap memory exhausted ****".toList 31]) ∧
    ("**** heap memory exhausted ****".toList).getLast? = some '*' ∧
    ("**** heap memory exhausted ****".toList).getLast? ≠ some '\n' ∧
    (entry_of sample_env LOGMSG_LEVEL_INFO "%s %f".toList []).getLast? = some '\n' := by
  decide

theorem log_entry_getLast (utc lvl host prog ids msg : List Char) :
    (log_entry utc lvl host prog ids msg).getLast? = some '\n' := by
  have h : log_entry utc lvl host prog ids msg =
      (utc ++ ' ' :: lvl ++ ' ' :: host ++ ':' :: prog ++ '[' :: ids ++ ']' :: ' ' :: msg) ++
        ['\n'] := by
    simp [log_entry]
  rw [h, List.getLast?_append]
  simp

/-- C15: within the sizes of the machine, for every level, every outcome of the
three context steps, of the measuring pass, of `malloc` and of `write`, and
whether the destination is open or not, `logmsg_printf` returns, and it returns
a state and events only, no status.  A failure of a context step or of the
measuring pass shows as the fixed text in its slot of the entry, a failure of
`malloc` as the static text in place of the entry; the entry is written once when
the destination is open and dropped when it is not; a write that does not report
the whole count changes one thing, the write-failure counter, which goes up by
one.  Nothing else of the state changes. -/
theorem logmsg_printf_completes (s : LogState) (env : Env) (level : Int)
    (format : List Char) (args : List Arg)
    (hmsg : (message_block env format args).1 < INT_MAX)
    (hprog : env.program_invocation_short_name.length < 2 ^ 32)
    (hhost : (env.gethostname (64 + 1)).2.length ≤ 64) :
    ∃ (s1 : LogState) (size : Nat),
      logmsg_printf s env level format args =
        some (s1, [Event.get_utc_time, Event.get_hostname, Event.get_process_and_thread_ids,
          Event.malloc size] ++
          (if s.logger_fd ≥ 0 then
            [Event.write s.logger_fd (entry_of env level format args)
              (entry_of env level format args).length]
          else []) ++
          (if env.malloc_fails then [] else [Event.free])) ∧
      (s1 = s ∨ s1 = { s with num_write_failures := uint64_incr s.num_write_failures }) ∧
      (s1 ≠ s → s.logger_fd ≥ 0 ∧
        size_t env.write ≠ (entry_of env level format args).length) := by
  refine ⟨write_block s env (entry_of env level format args).length,
    (log_entry (utc_time_field env) (logmsg_level_to_string level) (hostname_field env)
      env.program_invocation_short_name (pid_tid_field env)
      (message_field env format args)).length + 1, ?_, ?_, ?_⟩
  · rw [logmsg_printf_closed s env level format args hmsg hprog hhost]
    unfold printf_events
    cases env.malloc_fails <;> simp
  · unfold write_block
    split
    · split
      · right; rfl
      · left; rfl
    · left; rfl
  · intro hne
    unfold write_block at hne
    by_cases hfd : s.logger_fd ≥ 0
    · refine ⟨hfd, ?_⟩
      intro heq
      apply hne
      simp [hfd, heq]
    · exact absurd (by simp [hfd]) hne

theorem logmsg_printf_completes_witness :
    ∃ (s1 : LogState) (size : Nat),
      logmsg_printf sample_open_state { failing_env with malloc_fails := true, write := -1 }
          7 "%s %f".toList [] =
        some (s1, [Event.get_utc_time, Event.get_hostname, Event.get_process_and_thread_ids,
          Event.malloc size] ++
          (if sample_open_state.logger_fd ≥ 0 then
            [Event.write sample_open_state.logger_fd
              (entry_of { failing_env with malloc_fails := true, write := -1 } 7
                "%s %f".toList [])
              (entry_of { failing_env with malloc_fails := true, write := -1 } 7
                "%s %f".toList []).length]
          else []) ++
          (if ({ failing_env with malloc_fails := true, write := -1 } : Env).malloc_fails then []
            else [Event.free])) ∧
      (s1 = sample_open_state ∨ s1 = { sample_open_state with
        num_write_failures := uint64_incr sample_open_state.num_write_failures }) ∧
      (s1 ≠ sample_open_state → sample_open_state.logger_fd ≥ 0 ∧
        size_t ({ failing_env with malloc_fails := true, write := -1 } : Env).write ≠
          (entry_of { failing_env with malloc_fails := true, write := -1 } 7
            "%s %f".toList []).length) :=
  logmsg_printf_completes sample_open_state
    { failing_env with malloc_fails := true, write := -1 } 7 "%s %f".toList []
    (by decide) (by decide) (by decide)

/-! ## C16: the text of the time -/

theorem decimal_fixed_length (width n : Nat) : (decimal_fixed width n).length = width := by
  induction width generalizing n with
  | zero => rfl
  | succ w ih => simp [decimal_fixed, ih]

theorem decimal_fixed_zero (width : Nat) :
    decimal_fixed width 0 = List.replicate width '0' := by
  induction width with
  | zero => rfl
  | succ w ih =>
    simp only [decimal_fixed, Nat.zero_div, ih]
    rw [List.replicate_succ']
    rfl

theorem decimal_fixed_pad (width : Nat) : ∀ (n d : Nat), n < 10 ^ width →
    decimal_fixed (width + d) n = List.replicate d '0' ++ decimal_fixed width n := by
  induction width with
  | zero =>
    intro n d hn
    have h0 : n = 0 := by simpa using hn
    subst h0
    simp [decimal_fixed_zero, decimal_fixed]
  | succ w ih =>
    intro n d hn
    have h1 : n / 10 < 10 ^ w := by
      rw [Nat.div_lt_iff_lt_mul (by decide)]
      rw [pow_succ] at hn
      exact hn
    have e : w + 1 + d = (w + d) + 1 := by omega
    rw [e]
    simp only [decimal_fixed]
    rw [ih (n / 10) d h1]
    simp

theorem utoa_loop_eq (fuel : Nat) : ∀ (n : Nat) (acc : List Char) (k : Nat),
    n < fuel → (k = 0 ∨ 10 ^ k ≤ n) → n < 10 ^ (k + 1) →
      utoa_loop fuel n acc = decimal_fixed (k + 1) n ++ acc := by
  induction fuel with
  | zero => intro n acc k hf; omega
  | succ f ih =>
    intro n acc k hf hk hn
    unfold utoa_loop
    by_cases h10 : n < 10
    · rw [if_pos h10]
      have hk0 : k = 0 := by
        rcases hk with h | h
        · exact h
        · by_contra hne
          have : 10 ^ 1 ≤ 10 ^ k := Nat.pow_le_pow_right (by decide) (Nat.one_le_iff_ne_zero.mpr hne)
          omega
      subst hk0
      simp [decimal_fixed]
    · rw [if_neg h10]
      cases k with
      | zero => simp at hn; omega
      | succ k =>
        have hk1 : 10 ^ (k + 1) ≤ n := by
          rcases hk with h | h
          · omega
          · exact h
        have h1 : n / 10 < 10 ^ (k + 1) := by
          rw [Nat.div_lt_iff_lt_mul (by decide)]
          rw [pow_succ] at hn
          exact hn
        have h2 : n / 10 < f := by omega
        have h3 : k = 0 ∨ 10 ^ k ≤ n / 10 := by
          right
          rw [Nat.le_div_iff_mul_le (by decide)]
          rw [pow_succ] at hk1
          exact hk1
        rw [ih (n / 10) (digit n :: acc) k h2 h3 h1]
        simp [decimal_fixed]

theorem utoa_eq (n k : Nat) (hk : k = 0 ∨ 10 ^ k ≤ n) (hn : n < 10 ^ (k + 1)) :
    utoa n = decimal_fixed (k + 1) n := by
  have := utoa_loop_eq (n + 1) n [] k (Nat.lt_succ_self n) hk hn
  simpa [utoa] using this

theorem zero_pad_utoa (width n : Nat) (hw : 0 < width) (hn : n < 10 ^ width) :
    zero_pad width (utoa n) = decimal_fixed width n := by
  have hk : Nat.log 10 n = 0 ∨ 10 ^ Nat.log 10 n ≤ n := by
    by_cases h0 : n = 0
    · left; subst h0; simp
    · right; exact Nat.pow_log_le_self 10 h0
  have hlt : n < 10 ^ (Nat.log 10 n + 1) := Nat.lt_pow_succ_log_self (by decide) n
  have hle : Nat.log 10 n + 1 ≤ width := by
    by_contra hgt
    have h1 : width ≤ Nat.log 10 n := by omega
    have h2 : 10 ^ width ≤ 10 ^ Nat.log 10 n := Nat.pow_le_pow_right (by decide) h1
    rcases hk with h | h
    · omega
    · omega
  rw [utoa_eq n (Nat.log 10 n) hk hlt]
  unfold zero_pad
  rw [decimal_fixed_length]
  have e : width = (Nat.log 10 n + 1) + (width - (Nat.log 10 n + 1)) := by omega
  conv_rhs => rw [e]
  exact (decimal_fixed_pad (Nat.log 10 n + 1) n _ hlt).symm

theorem strftime_number_two (v : Int) (h0 : 0 ≤ v) (h1 : v ≤ 99) :
    strftime_number 2 v = decimal_fixed 2 v.toNat := by
  unfold strftime_number
  rw [if_neg (not_lt.mpr h0)]
  exact zero_pad_utoa 2 v.toNat (by decide) (by norm_num; omega)

theorem itoa_four (v : Int) (h0 : 1000 ≤ v) (h1 : v ≤ 9999) :
    itoa v = decimal_fixed 4 v.toNat := by
  unfold itoa
  rw [if_neg (by omega)]
  exact utoa_eq v.toNat 3 (Or.inr (by norm_num; omega)) (by norm_num; omega)

theorem snprintf_09lu_eq (nsec : Int) (h0 : 0 ≤ nsec) (h1 : nsec ≤ 999999999) :
    snprintf_09lu (1 + 9 + 1) nsec = '-' :: decimal_fixed 9 nsec.toNat := by
  have hs : size_t nsec = nsec.toNat := by
    have := size_t_natCast nsec.toNat (by unfold SIZE_MOD; omega)
    rw [Int.toNat_of_nonneg h0] at this
    exact this
  unfold snprintf_09lu
  rw [hs, zero_pad_utoa 9 nsec.toNat (by decide) (by norm_num; omega)]
  have hl := decimal_fixed_length 9 nsec.toNat
  rw [List.take_of_length_le (by simp [hl])]

/-- C16: when the clock is read, the calendar conversion gives a year of four
digits and two digit fields, and the nanosecond part is in `[0, 999999999]`,
`get_utc_time` called with the buffer of 33 bytes returns 29 and leaves in the
buffer the year on 4 digits, `-`, the month on 2, `-`, the day on 2, `-`, the hour
on 2, `:`, the minute on 2, `:`, the second on 2, `-`, and the nanoseconds on 9
digits with zeros in front; the returned value is the length of that string. -/
theorem get_utc_time_text (env : Env) (tv_sec tv_nsec : Int) (tm : Tm)
    (hclock : env.clock_gettime = some (tv_sec, tv_nsec))
    (hgmt : env.gmtime_r tv_sec = some tm)
    (hyear : 1000 ≤ tm.tm_year + 1900 ∧ tm.tm_year + 1900 ≤ 9999)
    (hmon : 0 ≤ tm.tm_mon + 1 ∧ tm.tm_mon + 1 ≤ 99)
    (hmday : 0 ≤ tm.tm_mday ∧ tm.tm_mday ≤ 99)
    (hhour : 0 ≤ tm.tm_hour ∧ tm.tm_hour ≤ 99)
    (hmin : 0 ≤ tm.tm_min ∧ tm.tm_min ≤ 99)
    (hsec : 0 ≤ tm.tm_sec ∧ tm.tm_sec ≤ 99)
    (hnsec : 0 ≤ tv_nsec ∧ tv_nsec ≤ 999999999) :
    get_utc_time env (32 + 1) =
      (29, decimal_fixed 4 (tm.tm_year + 1900).toNat ++ "-".toList ++
        decimal_fixed 2 (tm.tm_mon + 1).toNat ++ "-".toList ++
        decimal_fixed 2 tm.tm_mday.toNat ++ "-".toList ++
        decimal_fixed 2 tm.tm_hour.toNat ++ ":".toList ++
        decimal_fixed 2 tm.tm_min.toNat ++ ":".toList ++
        decimal_fixed 2 tm.tm_sec.toNat ++ "-".toList ++
        decimal_fixed 9 tv_nsec.toNat) ∧
    ((get_utc_time env (32 + 1)).2.length : Int) = (get_utc_time env (32 + 1)).1 := by
  have htext : strftime_text tm =
      decimal_fixed 4 (tm.tm_year + 1900).toNat ++ "-".toList ++
        decimal_fixed 2 (tm.tm_mon + 1).toNat ++ "-".toList ++
        decimal_fixed 2 tm.tm_mday.toNat ++ "-".toList ++
        decimal_fixed 2 tm.tm_hour.toNat ++ ":".toList ++
        decimal_fixed 2 tm.tm_min.toNat ++ ":".toList ++
        decimal_fixed 2 tm.tm_sec.toNat := by
    unfold strftime_text
    rw [itoa_four _ hyear.1 hyear.2, strftime_number_two _ hmon.1 hmon.2,
      strftime_number_two _ hmday.1 hmday.2, strftime_number_two _ hhour.1 hhour.2,
      strftime_number_two _ hmin.1 hmin.2, strftime_number_two _ hsec.1 hsec.2]
    simp
  have hlen : (strftime_text tm).length = 19 := by
    rw [htext]
    simp [decimal_fixed_length]
  have hst : strftime (32 + 1) tm = (19, strftime_text tm) := by
    unfold strftime
    rw [hlen]
    simp
  have hval : get_utc_time env (32 + 1) =
      (29, strftime_text tm ++ '-' :: decimal_fixed 9 tv_nsec.toNat) := by
    unfold get_utc_time
    simp only [hclock, hgmt, hst]
    rw [snprintf_09lu_eq tv_nsec hnsec.1 hnsec.2]
    have e1 : ¬ ((19 + 1 + 9) % SIZE_MOD ≥ 32 + 1) := by decide
    have e2 : (19 + (1 + 9)) % SIZE_MOD = 29 := by decide
    have e0 : ¬ ((19 : Nat) = 0) := by decide
    have ht : List.take 19 (strftime_text tm) = strftime_text tm :=
      List.take_of_length_le (by rw [hlen])
    simp only [e0, e1, e2, if_false, ht]
    rfl
  constructor
  · rw [hval, htext]
    simp
  · rw [hval]
    simp [hlen, decimal_fixed_length]

theorem get_utc_time_text_witness :
    get_utc_time sample_env (32 + 1) = (29, "2018-09-22-22:08:42-086858743".toList) ∧
    ((get_utc_time sample_env (32 + 1)).2.length : Int) = (get_utc_time sample_env (32 + 1)).1 :=
  get_utc_time_text sample_env 1537654122 86858743
    { tm_year := 118, tm_mon := 8, tm_mday := 22, tm_hour := 22, tm_min := 8, tm_sec := 42 }
    rfl rfl (by decide) (by decide) (by decide) (by decide) (by decide) (by decide) (by decide)

/-! ## C17: the content of the log file -/

theorem printf_sequence_complete (calls : List Call) : ∀ (s : LogState) (file : List Char),
    s.logger_fd ≥ 0 →
    (∀ c ∈ calls, (message_block c.env c.format c.args).1 < INT_MAX ∧
      c.env.program_invocation_short_name.length < 2 ^ 32 ∧
      (c.env.gethostname (64 + 1)).2.length ≤ 64 ∧
      c.env.write = ((entry_of c.env c.level c.format c.args).length : Int)) →
    printf_sequence s file calls =
      some (s, file ++ (calls.map (fun c => entry_of c.env c.level c.format c.args)).flatten) := by
  induction calls with
  | nil => intro s file _ _; simp [printf_sequence]
  | cons c cs ih =>
    intro s file hopen hall
    obtain ⟨hmsg, hprog, hhost, hw⟩ := hall c (List.mem_cons_self c cs)
    have hrest : ∀ c2 ∈ cs, (message_block c2.env c2.format c2.args).1 < INT_MAX ∧
        c2.env.program_invocation_short_name.length < 2 ^ 32 ∧
        (c2.env.gethostname (64 + 1)).2.length ≤ 64 ∧
        c2.env.write = ((entry_of c2.env c2.level c2.format c2.args).length : Int) :=
      fun c2 h2 => hall c2 (List.mem_cons_of_mem c h2)
    have hlen : (entry_of c.env c.level c.format c.args).length < SIZE_MOD := by
      have h0 : (0 : Int) ≤ c.env.write := by rw [hw]; exact Int.natCast_nonneg _
      have hb := gathered_bounds c.env c.format c.args _ _ _ _ _
        (gathered_fields c.env c.format c.args) hhost
      have hlvl := logmsg_level_to_string_length c.level
      have hm : ((message_field c.env c.format c.args).length : Int) < 2 ^ 31 - 1 := by
        rw [message_field_length]; exact hmsg
      unfold entry_of
      split
      · unfold SIZE_MOD; decide
      · rw [log_entry_length]
        unfold SIZE_MOD
        omega
    have hwb : write_block s c.env (entry_of c.env c.level c.format c.args).length = s := by
      unfold write_block
      rw [if_pos hopen, hw, size_t_natCast _ hlen]
      simp
    unfold printf_sequence
    rw [logmsg_printf_closed s c.env c.level c.format c.args hmsg hprog hhost, hwb]
    simp only [Option.some_bind]
    have hfold : List.foldl (append_write c.env.write) file
        (printf_events s ((log_entry (utc_time_field c.env) (logmsg_level_to_string c.level)
          (hostname_field c.env) c.env.program_invocation_short_name (pid_tid_field c.env)
          (message_field c.env c.format c.args)).length + 1)
          (entry_of c.env c.level c.format c.args) (!c.env.malloc_fails)) =
        file ++ entry_of c.env c.level c.format c.args := by
      unfold printf_events
      rw [if_pos hopen, hw]
      cases c.env.malloc_fails <;> simp [append_write]
    rw [hfold, ih s _ hopen hrest]
    simp

/-- C17: after a successful `logmsg_open_file` on an empty file, when every
`write` reports the whole count, the content of the file after any sequence of
calls of `logmsg_printf` is the concatenation, in call order, of the entries of
those calls: each write adds its entry at the end of the file, no entry is lost,
displaced or overwritten, and no write failure is counted. -/
theorem log_file_is_concatenation (s : LogState) (file_spec : List Char) (fd : Nat)
    (calls : List Call) (hclosed : s.logger_fd < 0)
    (hcalls : ∀ c ∈ calls, (message_block c.env c.format c.args).1 < INT_MAX ∧
      c.env.program_invocation_short_name.length < 2 ^ 32 ∧
      (c.env.gethostname (64 + 1)).2.length ≤ 64 ∧
      c.env.write = ((entry_of c.env c.level c.format c.args).length : Int)) :
    (logmsg_open_file s file_spec (some fd)).2 = 0 ∧
    printf_sequence (logmsg_open_file s file_spec (some fd)).1 [] calls =
      some ((logmsg_open_file s file_spec (some fd)).1,
        (calls.map (fun c => entry_of c.env c.level c.format c.args)).flatten) := by
  rw [logmsg_open_file_success s file_spec fd hclosed]
  refine ⟨rfl, ?_⟩
  have hopen : ({ s with logger_fd := (fd : Int) } : LogState).logger_fd ≥ 0 := by
    show (fd : Int) ≥ 0
    omega
  have := printf_sequence_complete calls _ [] hopen hcalls
  simpa using this

set_option maxRecDepth 20000 in
theorem log_file_is_concatenation_witness :
    (logmsg_open_file LogState.init "log.txt".toList (some 3)).2 = 0 ∧
    printf_sequence (logmsg_open_file LogState.init "log.txt".toList (some 3)).1 []
        [pi_call, e_call] =
      some ((logmsg_open_file LogState.init "log.txt".toList (some 3)).1,
        ([pi_call, e_call].map (fun c => entry_of c.env c.level c.format c.args)).flatten) :=
  log_file_is_concatenation LogState.init "log.txt".toList 3 [pi_call, e_call] (by decide)
    (by
      intro c hc
      simp only [List.mem_cons, List.mem_singleton, List.not_mem_nil, or_false] at hc
      rcases hc with rfl | rfl <;> decide)

/-! ## C18: the failure counters -/

theorem uint64_incr_bounds (n : Nat) (h : n + 1 < 2 ^ 64) :
    n ≤ uint64_incr n ∧ uint64_incr n ≤ n + 1 := by
  unfold uint64_incr
  rw [Nat.mod_eq_of_lt h]
  omega

theorem write_block_counter (s : LogState) (env : Env) (len : Nat) :
    (write_block s env len).num_write_failures = s.num_write_failures ∨
    (write_block s env len).num_write_failures = uint64_incr s.num_write_failures := by
  unfold write_block
  split
  · split
    · right; rfl
    · left; rfl
  · left; rfl

/-- C18: no operation of the library decreases a failure counter, and each
changes each counter by at most one, as long as the counter is below
`2 ^ 64 - 1`, where the `uint64_t` would wrap: this holds for `logmsg_open_file`,
`logmsg_open_conn`, `logmsg_printf` and an assignment of the threshold.  The
connection-failure counter is never changed at all.  `logmsg_level_to_string` is
a function of its argument alone and has no access to the counters. -/
theorem counters_never_decrease (s : LogState) (op : Op) (r : LogState × Option Int)
    (h : op.step s = some r) :
    (s.num_open_failures + 1 < 2 ^ 64 →
      s.num_open_failures ≤ r.1.num_open_failures ∧
      r.1.num_open_failures ≤ s.num_open_failures + 1) ∧
    r.1.num_conn_failures = s.num_conn_failures ∧
    (s.num_write_failures + 1 < 2 ^ 64 →
      s.num_write_failures ≤ r.1.num_write_failures ∧
      r.1.num_write_failures ≤ s.num_write_failures + 1) := by
  cases op with
  | open_file file_spec os_open =>
    simp only [Op.step, Option.some.injEq] at h
    subst h
    by_cases hfd : s.logger_fd ≥ 0
    · rw [logmsg_open_file_already_open s file_spec os_open hfd]
      exact ⟨fun hb => uint64_incr_bounds _ hb, rfl, fun _ => ⟨le_refl _, Nat.le_succ _⟩⟩
    · have hneg : s.logger_fd < 0 := not_le.mp hfd
      cases os_open with
      | none =>
        rw [logmsg_open_file_os_failure s file_spec hneg]
        exact ⟨fun hb => uint64_incr_bounds _ hb, rfl, fun _ => ⟨le_refl _, Nat.le_succ _⟩⟩
      | some fd =>
        rw [logmsg_open_file_success s file_spec fd hneg]
        exact ⟨fun _ => ⟨le_refl _, Nat.le_succ _⟩, rfl, fun _ => ⟨le_refl _, Nat.le_succ _⟩⟩
  | open_conn server_spec =>
    simp only [Op.step, Option.some.injEq] at h
    subst h
    exact ⟨fun _ => ⟨le_refl _, Nat.le_succ _⟩, rfl, fun _ => ⟨le_refl _, Nat.le_succ _⟩⟩
  | printf env level format args =>
    simp only [Op.step, Option.map_eq_some'] at h
    obtain ⟨res, hres, hr⟩ := h
    subst hr
    obtain ⟨len, size, written, freed, hshape, -⟩ := logmsg_printf_shape _ _ _ _ _ _ hres
    rw [hshape]
    obtain ⟨-, -, hof, hcf⟩ := write_block_frame s env len
    refine ⟨fun _ => ?_, hcf, fun hb => ?_⟩
    · show s.num_open_failures ≤ (write_block s env len).num_open_failures ∧
        (write_block s env len).num_open_failures ≤ s.num_open_failures + 1
      rw [hof]
      exact ⟨le_refl _, Nat.le_succ _⟩
    · show s.num_write_failures ≤ (write_block s env len).num_write_failures ∧
        (write_block s env len).num_write_failures ≤ s.num_write_failures + 1
      rcases write_block_counter s env len with hw | hw
      · rw [hw]; exact ⟨le_refl _, Nat.le_succ _⟩
      · rw [hw]; exact uint64_incr_bounds _ hb
  | set_level level =>
    simp only [Op.step, Option.some.injEq] at h
    subst h
    exact ⟨fun _ => ⟨le_refl _, Nat.le_succ _⟩, rfl, fun _ => ⟨le_refl _, Nat.le_succ _⟩⟩

theorem counters_never_decrease_witness :
    (sample_open_state.num_open_failures ≤
        (logmsg_open_file sample_open_state "other.txt".toList (some 4)).1.num_open_failures ∧
      (logmsg_open_file sample_open_state "other.txt".toList (some 4)).1.num_open_failures ≤
        sample_open_state.num_open_failures + 1) ∧
    (sample_open_state.num_write_failures ≤
        (write_block sample_open_state { sample_env with write := -1 }
          sample_entry.length).num_write_failures ∧
      (write_block sample_open_state { sample_env with write := -1 }
          sample_entry.length).num_write_failures ≤
        sample_open_state.num_write_failures + 1) :=
  ⟨(counters_never_decrease sample_open_state (Op.open_file "other.txt".toList (some 4))
      ((logmsg_open_file sample_open_state "other.txt".toList (some 4)).1,
        some (logmsg_open_file sample_open_state "other.txt".toList (some 4)).2) rfl).1
      (by decide),
    (counters_never_decrease sample_open_state
      (Op.printf { sample_env with write := -1 } LOGMSG_LEVEL_INFO "%s %f".toList [])
      (write_block sample_open_state { sample_env with write := -1 } sample_entry.length, none)
      (by decide)).2.2 (by decide)⟩

/-! ## C20: the length passed to `write` -/

/-- C20: when `malloc` succeeds, the length passed to `write` is the sum of the
lengths of the six fields (the fixed texts where a step failed) plus 7, for the
three spaces, `:`, `[`, `]` and the newline; the buffer is allocated with one
byte more; the assembly leaves `p_write` exactly that length after the start of
the buffer, having stored the documented line on the bytes before it, while the
byte after it is still the one `malloc` returned; and the bytes passed to `write`
are that line, neither a terminating NUL nor an unwritten byte. -/
theorem log_message_len_is_assembled_len (s : LogState) (env : Env) (level : Int)
    (format : List Char) (args : List Arg) (len : Nat)
    (hopen : s.logger_fd ≥ 0)
    (hmsg : (message_block env format args).1 < INT_MAX)
    (hprog : env.program_invocation_short_name.length < 2 ^ 32)
    (hhost : (env.gethostname (64 + 1)).2.length ≤ 64)
    (halloc : env.malloc_fails = false)
    (hlen : len = (utc_time_field env).length + (logmsg_level_to_string level).length +
      (hostname_field env).length + env.program_invocation_short_name.length +
      (pid_tid_field env).length + (message_field env format args).length + 7) :
    log_message_len (utc_time_field env).length (strlen (logmsg_level_to_string level))
        (hostname_field env).length (strlen env.program_invocation_short_name)
        (pid_tid_field env).length (message_field env format args).length = len ∧
    assemble env format args ((List.range (len + 1)).map env.heap_garbage)
        (utc_time_field env) (utc_time_field env).length
        (logmsg_level_to_string level) (strlen (logmsg_level_to_string level))
        (hostname_field env) (hostname_field env).length
        env.program_invocation_short_name (strlen env.program_invocation_short_name)
        (pid_tid_field env) (pid_tid_field env).length
        (message_block env format args).2 (message_field env format args).length =
      some (log_entry (utc_time_field env) (logmsg_level_to_string level) (hostname_field env)
          env.program_invocation_short_name (pid_tid_field env)
          (message_field env format args) ++ [env.heap_garbage len], len) ∧
    (log_entry (utc_time_field env) (logmsg_level_to_string level) (hostname_field env)
      env.program_invocation_short_name (pid_tid_field env)
      (message_field env format args)).length = len ∧
    logmsg_printf s env level format args =
      some (write_block s env len,
        [Event.get_utc_time, Event.get_hostname, Event.get_process_and_thread_ids,
          Event.malloc (len + 1),
          Event.write s.logger_fd
            (log_entry (utc_time_field env) (logmsg_level_to_string level) (hostname_field env)
              env.program_invocation_short_name (pid_tid_field env)
              (message_field env format args)) len,
          Event.free]) := by
  have hg := gathered_fields env format args
  obtain ⟨hub, hhb, hib, -⟩ := gathered_bounds env format args _ _ _ _ _ hg hhost
  have hlvl := logmsg_level_to_string_length level
  have hml : ((message_field env format args).length : Int) < INT_MAX := by
    rw [message_field_length]; exact hmsg
  have hel : (log_entry (utc_time_field env) (logmsg_level_to_string level) (hostname_field env)
      env.program_invocation_short_name (pid_tid_field env)
      (message_field env format args)).length = len := by
    rw [log_entry_length, hlen]
  have hsz : len + 1 < SIZE_MOD := by
    have : ((message_field env format args).length : Int) < 2 ^ 31 - 1 := hml
    unfold SIZE_MOD
    omega
  refine ⟨?_, ?_, hel, ?_⟩
  · unfold strlen
    rw [log_message_len_eq _ _ _ _ _ _ (by rw [hel]; omega), hel]
  · unfold strlen
    rw [assemble_eq env format args _ _ _ _ _ _ _ _ (by rw [hel]; simp) (by rw [hel]; exact hsz)
      (by have : ((message_field env format args).length : Int) < 2 ^ 31 - 1 := hml
          show ((message_field env format args).length : Int) + 1 ≤ 2 ^ 31 - 1
          omega) hg.2.2.2.2.1 hg.2.2.2.2.2, hel]
    have hd : List.drop len (List.range (len + 1)) = [len] := by
      rw [List.range_succ]
      have h1 : List.drop len (List.range len ++ [len]) =
          List.drop (List.range len).length (List.range len ++ [len]) := by simp
      rw [h1, List.drop_left]
    rw [← List.map_drop, hd]
    rfl
  · rw [logmsg_printf_closed s env level format args hmsg hprog hhost, hel]
    simp [printf_events, hopen, halloc, entry_of, hel]

theorem log_message_len_is_assembled_len_witness :
    log_message_len (utc_time_field sample_env).length (strlen (logmsg_level_to_string LOGMSG_LEVEL_INFO))
        (hostname_field sample_env).length (strlen sample_env.program_invocation_short_name)
        (pid_tid_field sample_env).length (message_field sample_env "%s %f".toList []).length = 74 ∧
    assemble sample_env "%s %f".toList [] ((List.range (74 + 1)).map sample_env.heap_garbage)
        (utc_time_field sample_env) (utc_time_field sample_env).length
        (logmsg_level_to_string LOGMSG_LEVEL_INFO) (strlen (logmsg_level_to_string LOGMSG_LEVEL_INFO))
        (hostname_field sample_env) (hostname_field sample_env).length
        sample_env.program_invocation_short_name (strlen sample_env.program_invocation_short_name)
        (pid_tid_field sample_env) (pid_tid_field sample_env).length
        (message_block sample_env "%s %f".toList []).2 (message_field sample_env "%s %f".toList []).length =
      some (log_entry (utc_time_field sample_env) (logmsg_level_to_string LOGMSG_LEVEL_INFO)
          (hostname_field sample_env)
          sample_env.program_invocation_short_name (pid_tid_field sample_env)
          (message_field sample_env "%s %f".toList []) ++ [sample_env.heap_garbage 74], 74) ∧
    (log_entry (utc_time_field sample_env) (logmsg_level_to_string LOGMSG_LEVEL_INFO)
          (hostname_field sample_env)
      sample_env.program_invocation_short_name (pid_tid_field sample_env)
      (message_field sample_env "%s %f".toList [])).length = 74 ∧
    logmsg_printf sample_open_state sample_env LOGMSG_LEVEL_INFO "%s %f".toList [] =
      some (write_block sample_open_state sample_env 74,
        [Event.get_utc_time, Event.get_hostname, Event.get_process_and_thread_ids,
          Event.malloc (74 + 1),
          Event.write sample_open_state.logger_fd
            (log_entry (utc_time_field sample_env) (logmsg_level_to_string LOGMSG_LEVEL_INFO)
          (hostname_field sample_env)
              sample_env.program_invocation_short_name (pid_tid_field sample_env)
              (message_field sample_env "%s %f".toList [])) 74,
          Event.free]) :=
  log_message_len_is_assembled_len sample_open_state sample_env LOGMSG_LEVEL_INFO
    "%s %f".toList [] 74 (by decide) (by decide) (by decide) (by decide) (by decide)
    (by decide)

/-! ## C21: when `get_utc_time` fails -/

theorem strftime_fst_lt (max : Nat) (tm : Tm) (h : (strftime max tm).1 ≠ 0) :
    (strftime max tm).1 < max ∧ (strftime max tm).1 = (strftime_text tm).length ∧
      (strftime max tm).2 = strftime_text tm := by
  unfold strftime at h ⊢
  by_cases hfit : (strftime_text tm).length + 1 ≤ max
  · rw [if_pos hfit]
    exact ⟨by show (strftime_text tm).length < max; omega, rfl, rfl⟩
  · simp [hfit] at h

/-- C21: `get_utc_time` returns a negative value if and only if the clock read
fails, or the calendar conversion fails, or `strftime` returns 0, or the base
text it returned leaves no room for the 10 characters of the nanosecond part and
a terminator (`base_len + 10 >= buffer_len`).  In every other case it returns
`base_len + 10`, which is less than `buffer_len` and is the length of the string
in the buffer, so that string and its terminator fit.  Stated for a buffer length
at least 10 below `2 ^ 64`, where `base_len + 10` cannot wrap. -/
theorem get_utc_time_negative_iff (env : Env) (buffer_len : Nat)
    (hb : buffer_len + 10 ≤ SIZE_MOD) :
    ((get_utc_time env buffer_len).1 < 0 ↔
      (env.clock_gettime = none ∨
        (∃ tv_sec tv_nsec, env.clock_gettime = some (tv_sec, tv_nsec) ∧
          env.gmtime_r tv_sec = none) ∨
        (∃ tv_sec tv_nsec tm, env.clock_gettime = some (tv_sec, tv_nsec) ∧
          env.gmtime_r tv_sec = some tm ∧ (strftime buffer_len tm).1 = 0) ∨
        (∃ tv_sec tv_nsec tm, env.clock_gettime = some (tv_sec, tv_nsec) ∧
          env.gmtime_r tv_sec = some tm ∧ (strftime buffer_len tm).1 + 10 ≥ buffer_len))) ∧
    (∀ tv_sec tv_nsec tm, env.clock_gettime = some (tv_sec, tv_nsec) →
      env.gmtime_r tv_sec = some tm → (strftime buffer_len tm).1 ≠ 0 →
      (strftime buffer_len tm).1 + 10 < buffer_len →
        (get_utc_time env buffer_len).1 = (((strftime buffer_len tm).1 + 10 : Nat) : Int) ∧
        (get_utc_time env buffer_len).1 < (buffer_len : Int) ∧
        ((get_utc_time env buffer_len).2.length : Int) = (get_utc_time env buffer_len).1 ∧
        (get_utc_time env buffer_len).2.length + 1 ≤ buffer_len) := by
  have hsucc : ∀ tv_sec tv_nsec tm, env.clock_gettime = some (tv_sec, tv_nsec) →
      env.gmtime_r tv_sec = some tm → (strftime buffer_len tm).1 ≠ 0 →
      (strftime buffer_len tm).1 + 10 < buffer_len →
        get_utc_time env buffer_len = ((((strftime buffer_len tm).1 + 10 : Nat) : Int),
          strftime_text tm ++ snprintf_09lu (1 + 9 + 1) tv_nsec) := by
    intro tv_sec tv_nsec tm hc hg h0 hlt
    obtain ⟨-, hlen, htext⟩ := strftime_fst_lt buffer_len tm h0
    unfold get_utc_time
    simp only [hc, hg, h0, if_false]
    have e1 : ((strftime buffer_len tm).1 + 1 + 9) % SIZE_MOD = (strftime buffer_len tm).1 + 10 :=
      Nat.mod_eq_of_lt (by omega)
    rw [e1, if_neg (by omega), htext, hlen, List.take_length]
  constructor
  · constructor
    · intro hneg
      cases hc : env.clock_gettime with
      | none => left; rfl
      | some t =>
        obtain ⟨tv_sec, tv_nsec⟩ := t
        right
        cases hg : env.gmtime_r tv_sec with
        | none => left; exact ⟨tv_sec, tv_nsec, rfl, hg⟩
        | some tm =>
          right
          by_cases h0 : (strftime buffer_len tm).1 = 0
          · left; exact ⟨tv_sec, tv_nsec, tm, rfl, hg, h0⟩
          · right
            refine ⟨tv_sec, tv_nsec, tm, rfl, hg, ?_⟩
            by_contra hlt
            rw [hsucc tv_sec tv_nsec tm hc hg h0 (by omega)] at hneg
            have : (0 : Int) ≤ (((strftime buffer_len tm).1 + 10 : Nat) : Int) :=
              Int.natCast_nonneg _
            exact absurd hneg (not_lt.mpr this)
    · intro h
      unfold get_utc_time
      rcases h with hc | ⟨tv_sec, tv_nsec, hc, hg⟩ | ⟨tv_sec, tv_nsec, tm, hc, hg, h0⟩ |
        ⟨tv_sec, tv_nsec, tm, hc, hg, hge⟩
      · simp [hc]
      · simp [hc, hg]
      · simp [hc, hg, h0]
      · simp only [hc, hg]
        by_cases h0 : (strftime buffer_len tm).1 = 0
        · simp [h0]
        · have hlt := (strftime_fst_lt buffer_len tm h0).1
          have e1 : ((strftime buffer_len tm).1 + 1 + 9) % SIZE_MOD =
              (strftime buffer_len tm).1 + 10 := Nat.mod_eq_of_lt (by omega)
          simp only [h0, if_false, e1]
          rw [if_pos hge]
          show (-4 : Int) < 0
          decide
  · intro tv_sec tv_nsec tm hc hg h0 hlt
    rw [hsucc tv_sec tv_nsec tm hc hg h0 hlt]
    have hlen := (strftime_fst_lt buffer_len tm h0).2.1
    refine ⟨rfl, ?_, ?_, ?_⟩
    · show (((strftime buffer_len tm).1 + 10 : Nat) : Int) < (buffer_len : Int)
      exact_mod_cast hlt
    · show ((strftime_text tm ++ snprintf_09lu (1 + 9 + 1) tv_nsec).length : Int) =
        (((strftime buffer_len tm).1 + 10 : Nat) : Int)
      rw [List.length_append, snprintf_09lu_length, hlen]
    · show (strftime_text tm ++ snprintf_09lu (1 + 9 + 1) tv_nsec).length + 1 ≤ buffer_len
      rw [List.length_append, snprintf_09lu_length]
      omega

theorem get_utc_time_negative_iff_witness :
    (get_utc_time sample_env 29).1 < 0 ∧
    ((get_utc_time sample_env 30).1 = (((strftime 30
        { tm_year := 118, tm_mon := 8, tm_mday := 22, tm_hour := 22, tm_min := 8,
          tm_sec := 42 }).1 + 10 : Nat) : Int) ∧
      (get_utc_time sample_env 30).1 < ((30 : Nat) : Int) ∧
      ((get_utc_time sample_env 30).2.length : Int) = (get_utc_time sample_env 30).1 ∧
      (get_utc_time sample_env 30).2.length + 1 ≤ 30) :=
  ⟨(get_utc_time_negative_iff sample_env 29 (by decide)).1.mpr
      (Or.inr (Or.inr (Or.inr ⟨1537654122, 86858743,
        { tm_year := 118, tm_mon := 8, tm_mday := 22, tm_hour := 22, tm_min := 8, tm_sec := 42 },
        rfl, rfl, by decide⟩))),
    (get_utc_time_negative_iff sample_env 30 (by decide)).2 1537654122 86858743
      { tm_year := 118, tm_mon := 8, tm_mday := 22, tm_hour := 22, tm_min := 8, tm_sec := 42 }
      rfl rfl (by decide) (by decide)⟩

/-! ## C22: the text of the ids -/

theorem digit_eq_digitChar (n : Nat) : digit n = Nat.digitChar (n % 10) := by
  have h : n % 10 < 10 := Nat.mod_lt n (by decide)
  unfold digit
  generalize n % 10 = m at h
  interval_cases m <;> rfl

theorem utoa_loop_eq_toDigitsCore (fuel : Nat) : ∀ (n : Nat) (acc : List Char),
    utoa_loop fuel n acc = Nat.toDigitsCore 10 fuel n acc := by
  induction fuel with
  | zero => intro n acc; rfl
  | succ f ih =>
    intro n acc
    unfold utoa_loop Nat.toDigitsCore
    by_cases h10 : n < 10
    · have h0 : n / 10 = 0 := Nat.div_eq_of_lt h10
      simp [h10, h0, digit_eq_digitChar]
    · have h0 : ¬ (n / 10 = 0) := by omega
      simp only [h10, h0, if_false]
      rw [ih, digit_eq_digitChar]

theorem utoa_eq_toString (n : Nat) : utoa n = (toString n).toList := by
  unfold utoa
  rw [utoa_loop_eq_toDigitsCore]
  rfl

theorem itoa_eq_toString (i : Int) : itoa i = (toString i).toList := by
  unfold itoa
  cases i with
  | ofNat m =>
    have h : ¬ (Int.ofNat m < 0) := by
      have : (0 : Int) ≤ Int.ofNat m := Int.ofNat_nonneg m
      omega
    rw [if_neg h]
    exact utoa_eq_toString m
  | negSucc m =>
    have h : Int.negSucc m < 0 := Int.negSucc_lt_zero m
    rw [if_pos h]
    have e : (-Int.negSucc m).toNat = m + 1 := by
      rw [Int.neg_negSucc]
      rfl
    rw [e, utoa_eq_toString]
    rfl

/-- C22: with `p` and `t` the process and thread ids as `pid_t` values and `text`
the decimal text of `p`, a colon and the decimal text of `t`, of length `L`:
for every buffer length `n`, `get_process_and_thread_ids` leaves `text` in the
buffer and returns `L` when formatting succeeds and `L < n`; it returns a
negative value when `L >= n` and when formatting reports an error; and whenever
the returned value is not negative it is `L`, the buffer holds `text`, and `text`
with its terminator fits in `n` bytes. -/
theorem get_process_and_thread_ids_result (env : Env) (n : Nat) (p t : Int)
    (text : List Char) (hp : pid_t env.getpid = p) (ht : pid_t env.gettid = t)
    (htext : text = (toString p).toList ++ ":".toList ++ (toString t).toList) :
    (env.snprintf_error = false → text.length < n →
      get_process_and_thread_ids env n = ((text.length : Int), text)) ∧
    (env.snprintf_error = false → text.length ≥ n →
      (get_process_and_thread_ids env n).1 < 0) ∧
    (env.snprintf_error = true → (get_process_and_thread_ids env n).1 < 0) ∧
    (0 ≤ (get_process_and_thread_ids env n).1 →
      (get_process_and_thread_ids env n).1 = (text.length : Int) ∧
      (get_process_and_thread_ids env n).2 = text ∧ text.length + 1 ≤ n) := by
  have he : text = itoa (pid_t env.getpid) ++ ':' :: itoa (pid_t env.gettid) := by
    rw [htext, hp, ht, itoa_eq_toString, itoa_eq_toString]
    simp
  have hl1 := itoa_pid_t_length env.getpid
  have hl2 := itoa_pid_t_length env.gettid
  have hlen : text.length < SIZE_MOD := by
    rw [he]
    simp only [List.length_append, List.length_cons]
    unfold SIZE_MOD
    omega
  have hnn : ¬ ((text.length : Int) < 0) := by
    have : (0 : Int) ≤ (text.length : Int) := Int.natCast_nonneg _
    omega
  refine ⟨?_, ?_, ?_, ?_⟩
  · intro herr hlt
    unfold get_process_and_thread_ids snprintf_d_d
    simp only [herr, Bool.false_eq_true, if_false, ← he]
    rw [size_t_natCast _ hlen, if_neg (by
      intro h
      rcases h with h | h
      · exact hnn h
      · omega)]
    rw [List.take_of_length_le (by omega)]
  · intro herr hge
    unfold get_process_and_thread_ids snprintf_d_d
    simp only [herr, Bool.false_eq_true, if_false, ← he]
    rw [size_t_natCast _ hlen, if_pos (Or.inr hge)]
    show (-1 : Int) < 0
    decide
  · intro herr
    unfold get_process_and_thread_ids snprintf_d_d
    simp [herr]
  · intro h
    obtain ⟨h1, h2, h3⟩ := get_process_and_thread_ids_nonneg env n h
    rw [← he] at h3
    rw [h3] at h1 h2
    exact ⟨h1.symm, h3, by omega⟩

theorem get_process_and_thread_ids_result_witness :
    get_process_and_thread_ids sample_env 33 =
      ((("4711:4712".toList).length : Int), "4711:4712".toList) ∧
    (get_process_and_thread_ids sample_env 9).1 < 0 ∧
    (get_process_and_thread_ids { sample_env with snprintf_error := true } 33).1 < 0 :=
  ⟨(get_process_and_thread_ids_result sample_env 33 4711 4712 "4711:4712".toList
      (by decide) (by decide) (by decide)).1 (by decide) (by decide),
    (get_process_and_thread_ids_result sample_env 9 4711 4712 "4711:4712".toList
      (by decide) (by decide) (by decide)).2.1 (by decide) (by decide),
    (get_process_and_thread_ids_result { sample_env with snprintf_error := true } 33 4711 4712
      "4711:4712".toList (by decide) (by decide) (by decide)).2.2.1 (by decide)⟩

/-! ## C24: the ids always fit the array of `logmsg_printf` -/

theorem pid_t_of_range (v : Int) (h1 : -(2 ^ 31) ≤ v) (h2 : v < 2 ^ 31) : pid_t v = v := by
  unfold pid_t
  omega

/-- C24: process and thread ids are 32 bit signed values (`pid_t` keeps every
value of that range), so the text `pid:tid` has at most 23 characters; with the
array of 33 bytes that `logmsg_printf` passes, `get_process_and_thread_ids`
returns a negative value if and only if formatting reports an error, and when it
reports none the field of the entry is the text of the ids and not
`**** unknown pid and tid ****`. -/
theorem pid_tid_overflow_unreachable (env : Env) :
    (∀ v : Int, -(2 ^ 31) ≤ v → v < 2 ^ 31 → pid_t v = v) ∧
    ((toString (pid_t env.getpid)).toList ++ ":".toList ++
      (toString (pid_t env.gettid)).toList).length ≤ 23 ∧
    ((get_process_and_thread_ids env (32 + 1)).1 < 0 ↔ env.snprintf_error = true) ∧
    (env.snprintf_error = false →
      pid_tid_field env = (toString (pid_t env.getpid)).toList ++ ":".toList ++
        (toString (pid_t env.gettid)).toList ∧
      pid_tid_field env ≠ "**** unknown pid and tid ****".toList) := by
  have hl1 := itoa_pid_t_length env.getpid
  have hl2 := itoa_pid_t_length env.gettid
  have hlen : ((toString (pid_t env.getpid)).toList ++ ":".toList ++
      (toString (pid_t env.gettid)).toList).length ≤ 23 := by
    rw [← itoa_eq_toString, ← itoa_eq_toString]
    simp only [List.length_append, String.toList, List.length_cons, List.length_nil]
    omega
  obtain ⟨hok, -, herr, -⟩ := get_process_and_thread_ids_result env (32 + 1) _ _ _ rfl rfl rfl
  have hiff : (get_process_and_thread_ids env (32 + 1)).1 < 0 ↔ env.snprintf_error = true := by
    constructor
    · intro hneg
      cases he : env.snprintf_error with
      | true => rfl
      | false =>
        rw [hok he (by omega)] at hneg
        have : (0 : Int) ≤ ((((toString (pid_t env.getpid)).toList ++ ":".toList ++
          (toString (pid_t env.gettid)).toList).length : Nat) : Int) := Int.natCast_nonneg _
        exact absurd hneg (not_lt.mpr this)
    · exact herr
  refine ⟨pid_t_of_range, hlen, hiff, ?_⟩
  intro he
  have hfield : pid_tid_field env = (toString (pid_t env.getpid)).toList ++ ":".toList ++
      (toString (pid_t env.gettid)).toList := by
    unfold pid_tid_field
    rw [if_neg (by rw [hiff, he]; simp), hok he (by omega)]
  refine ⟨hfield, ?_⟩
  intro heq
  have h29 : (pid_tid_field env).length = 29 := by rw [heq]; rfl
  rw [hfield] at h29
  omega

theorem pid_tid_overflow_unreachable_witness :
    pid_t (-2147483648) = -2147483648 ∧
    (pid_tid_field min_ids_env =
        (toString (pid_t min_ids_env.getpid)).toList ++ ":".toList ++
        (toString (pid_t min_ids_env.gettid)).toList ∧
      pid_tid_field min_ids_env ≠ "**** unknown pid and tid ****".toList) ∧
    (pid_tid_field min_ids_env).length = 23 :=
  ⟨(pid_tid_overflow_unreachable sample_env).1 (-2147483648) (by decide) (by decide),
    (pid_tid_overflow_unreachable min_ids_env).2.2.2 (by decide), by decide⟩

/-! ## C23: every store is inside the buffer -/

theorem write_utc_time_stores (f : List Char) (w : List Char × Nat)
    (hs : f.length + 1 < SIZE_MOD) :
    write_utc_time f (f.length : Int) w =
      (poke w.1 w.2 (f ++ [NUL])).bind fun b =>
        (poke b (w.2 + f.length) [' ']).bind fun b2 => some (b2, w.2 + f.length + 1) := by
  simp only [write_utc_time, size_t_succ_natCast _ hs, strncpy_bytes_whole, Int.toNat_natCast]
  rfl

theorem write_log_level_stores (f : List Char) (w : List Char × Nat)
    (hs : f.length + 1 < SIZE_MOD) :
    write_log_level f f.length w =
      (poke w.1 w.2 (f ++ [NUL])).bind fun b =>
        (poke b (w.2 + f.length) [' ']).bind fun b2 => some (b2, w.2 + f.length + 1) := by
  simp only [write_log_level, Nat.mod_eq_of_lt hs, strncpy_bytes_whole]
  rfl

theorem write_hostname_stores (f : List Char) (w : List Char × Nat)
    (hs : f.length + 1 < SIZE_MOD) :
    write_hostname f (f.length : Int) w =
      (poke w.1 w.2 (f ++ [NUL])).bind fun b =>
        (poke b (w.2 + f.length) [':']).bind fun b2 => some (b2, w.2 + f.length + 1) := by
  simp only [write_hostname, size_t_succ_natCast _ hs, strncpy_bytes_whole, Int.toNat_natCast]
  rfl

theorem write_program_name_stores (f : List Char) (w : List Char × Nat)
    (hs : f.length + 1 < SIZE_MOD) :
    write_program_name f f.length w =
      (poke w.1 w.2 (f ++ [NUL])).bind fun b => some (b, w.2 + f.length) := by
  simp only [write_program_name, Nat.mod_eq_of_lt hs, strncpy_bytes_whole]
  rfl

theorem write_pid_tid_stores (f : List Char) (w : List Char × Nat)
    (hs : f.length + 1 < SIZE_MOD) :
    write_pid_tid f (f.length : Int) w =
      (poke w.1 w.2 ['[']).bind fun b =>
        (poke b (w.2 + 1) (f ++ [NUL])).bind fun b2 =>
          (poke b2 (w.2 + 1 + f.length) [']']).bind fun b3 =>
            (poke b3 (w.2 + 1 + f.length + 1) [' ']).bind fun b4 =>
              some (b4, w.2 + 1 + f.length + 1 + 1) := by
  simp only [write_pid_tid, size_t_succ_natCast _ hs, strncpy_bytes_whole, Int.toNat_natCast]
  rfl

theorem write_message_stores (env : Env) (format : List Char) (args : List Arg)
    (m : List Char) (is_error_text : Bool) (w : List Char × Nat)
    (hi : (m.length : Int) + 1 ≤ INT_MAX)
    (hv : is_error_text = false → env.format_output format args = some m)
    (he : is_error_text = true → m = format_error_text) :
    write_message env format args is_error_text (m.length : Int) w =
      (poke w.1 w.2 (m ++ [NUL])).bind fun b =>
        (poke b (w.2 + m.length) ['\n']).bind fun b2 => some (b2, w.2 + m.length + 1) := by
  have hs : m.length + 1 < SIZE_MOD := by
    have : (m.length : Int) + 1 ≤ 2 ^ 31 - 1 := hi
    unfold SIZE_MOD
    omega
  have hgt : ¬ ((m.length : Int) > INT_MAX) := by
    have : (m.length : Int) + 1 ≤ 2 ^ 31 - 1 := hi
    show ¬ ((m.length : Int) > 2 ^ 31 - 1)
    omega
  cases is_error_text with
  | false =>
    simp only [write_message, size_t_succ_natCast _ hs, Int.toNat_natCast,
      if_neg (not_lt.mpr hi), if_true, vsnprintf, hv rfl, hgt, if_false, Nat.add_sub_cancel,
      List.take_length, Nat.succ_ne_zero]
    rfl
  | true =>
    rw [he rfl]
    rw [he rfl] at hs hi
    simp only [write_message, size_t_succ_natCast _ hs, Int.toNat_natCast,
      if_neg (not_lt.mpr hi), strncpy_bytes_whole]
    simp only [Bool.true_eq_false, if_false]
    rfl

theorem assemble_eq_run_stores (env : Env) (format : List Char) (args : List Arg)
    (block utc lvl host prog ids msg : List Char) (is_error_text : Bool)
    (hsz : (log_entry utc lvl host prog ids msg).length + 1 < SIZE_MOD)
    (hi : (msg.length : Int) + 1 ≤ INT_MAX)
    (hv : is_error_text = false → env.format_output format args = some msg)
    (he : is_error_text = true → msg = format_error_text) :
    assemble env format args block utc utc.length lvl lvl.length host host.length
        prog prog.length ids ids.length is_error_text msg.length =
      (run_stores block (entry_stores utc lvl host prog ids msg)).map
        (fun b => (b, (log_entry utc lvl host prog ids msg).length)) := by
  rw [log_entry_length] at hsz ⊢
  have e1 : write_log_level lvl lvl.length = fun w => _ :=
    funext fun w => write_log_level_stores lvl w (by omega)
  have e2 : write_hostname host (host.length : Int) = fun w => _ :=
    funext fun w => write_hostname_stores host w (by omega)
  have e3 : write_program_name prog prog.length = fun w => _ :=
    funext fun w => write_program_name_stores prog w (by omega)
  have e4 : write_pid_tid ids (ids.length : Int) = fun w => _ :=
    funext fun w => write_pid_tid_stores ids w (by omega)
  have e5 : write_message env format args is_error_text (msg.length : Int) = fun w => _ :=
    funext fun w => write_message_stores env format args msg is_error_text w hi hv he
  unfold assemble
  rw [write_utc_time_stores utc _ (by omega), e1, e2, e3, e4, e5]
  have earith : utc.length + 1 + lvl.length + 1 + host.length + 1 + prog.length + 1 + ids.length +
      1 + 1 + msg.length + 1 =
      utc.length + lvl.length + host.length + prog.length + ids.length + msg.length + 7 := by
    omega
  have hmap : ∀ (x : Option (List Char)) (k : Nat),
      x.map (fun b => (b, k)) = x.bind (fun b => some (b, k)) := by
    intro x k
    cases x <;> rfl
  rw [hmap]
  simp only [run_stores, entry_stores, Option.bind_assoc, Option.some_bind, Nat.zero_add,
    earith]

theorem entry_stores_in_bounds (utc lvl host prog ids msg : List Char) :
    ∀ st ∈ entry_stores utc lvl host prog ids msg,
      st.1 + st.2.length ≤ (log_entry utc lvl host prog ids msg).length + 1 := by
  intro st hst
  rw [log_entry_length]
  simp only [entry_stores, List.mem_cons, List.mem_singleton, List.not_mem_nil, or_false] at hst
  rcases hst with h | h | h | h | h | h | h | h | h | h | h | h | h <;> subst h <;>
    simp only [List.length_append, List.length_cons, List.length_nil] <;> omega

/-- C23: the assembly of `logmsg_printf` is exactly the list of thirteen stores
`entry_stores`: each field copied with its terminator (`length + 1` bytes), each
separator, the message with its terminator (`message_len + 1` bytes) and the
newline, at the offsets the source computes.  Every one of these stores ends at
or before offset `log_message_len + 1`, the size of the allocated buffer, whatever
the fields are, fixed texts included; a store is defined only when it lies inside
the buffer, and on the allocated buffer the assembly is defined and leaves a
buffer of the same size. -/
theorem assembly_stores_in_bounds (env : Env) (level : Int) (format : List Char)
    (args : List Arg) (len : Nat)
    (hmsg : (message_block env format args).1 < INT_MAX)
    (hprog : env.program_invocation_short_name.length < 2 ^ 32)
    (hhost : (env.gethostname (64 + 1)).2.length ≤ 64)
    (hlen : len = log_message_len (utc_time_field env).length
      (strlen (logmsg_level_to_string level)) (hostname_field env).length
      (strlen env.program_invocation_short_name) (pid_tid_field env).length
      (message_field env format args).length) :
    (∀ block : List Char,
      assemble env format args block
          (utc_time_field env) (utc_time_field env).length
          (logmsg_level_to_string level) (strlen (logmsg_level_to_string level))
          (hostname_field env) (hostname_field env).length
          env.program_invocation_short_name (strlen env.program_invocation_short_name)
          (pid_tid_field env) (pid_tid_field env).length
          (message_block env format args).2 (message_field env format args).length =
        (run_stores block (entry_stores (utc_time_field env) (logmsg_level_to_string level)
          (hostname_field env) env.program_invocation_short_name (pid_tid_field env)
          (message_field env format args))).map (fun b => (b, len))) ∧
    (∀ st ∈ entry_stores (utc_time_field env) (logmsg_level_to_string level)
        (hostname_field env) env.program_invocation_short_name (pid_tid_field env)
        (message_field env format args),
      st.1 + st.2.length ≤ len + 1) ∧
    (∀ (buf : List Char) (off : Nat) (data : List Char),
      (poke buf off data).isSome = true ↔ off + data.length ≤ buf.length) ∧
    (∃ buf : List Char,
      run_stores ((List.range (len + 1)).map env.heap_garbage)
        (entry_stores (utc_time_field env) (logmsg_level_to_string level)
          (hostname_field env) env.program_invocation_short_name (pid_tid_field env)
          (message_field env format args)) = some buf ∧
      buf.length = len + 1) := by
  have hg := gathered_fields env format args
  obtain ⟨hub, hhb, hib, -⟩ := gathered_bounds env format args _ _ _ _ _ hg hhost
  have hlvl := logmsg_level_to_string_length level
  have hml : ((message_field env format args).length : Int) < INT_MAX := by
    rw [message_field_length]; exact hmsg
  have hi : ((message_field env format args).length : Int) + 1 ≤ INT_MAX := by
    have : ((message_field env format args).length : Int) < 2 ^ 31 - 1 := hml
    show ((message_field env format args).length : Int) + 1 ≤ 2 ^ 31 - 1
    omega
  have hsz : (log_entry (utc_time_field env) (logmsg_level_to_string level) (hostname_field env)
      env.program_invocation_short_name (pid_tid_field env)
      (message_field env format args)).length + 1 < SIZE_MOD := by
    rw [log_entry_length]
    have : ((message_field env format args).length : Int) < 2 ^ 31 - 1 := hml
    unfold SIZE_MOD
    omega
  have hel : len = (log_entry (utc_time_field env) (logmsg_level_to_string level)
      (hostname_field env) env.program_invocation_short_name (pid_tid_field env)
      (message_field env format args)).length := by
    rw [hlen]
    unfold strlen
    exact log_message_len_eq _ _ _ _ _ _ (by omega)
  have hrefine := fun block => assemble_eq_run_stores env format args block
    (utc_time_field env) (logmsg_level_to_string level) (hostname_field env)
    env.program_invocation_short_name (pid_tid_field env) (message_field env format args)
    (message_block env format args).2 hsz hi hg.2.2.2.2.1 hg.2.2.2.2.2
  refine ⟨?_, ?_, ?_, ?_⟩
  · intro block
    rw [hel]
    exact hrefine block
  · intro st hst
    rw [hel]
    exact entry_stores_in_bounds _ _ _ _ _ _ st hst
  · intro buf off data
    unfold poke
    split <;> simp_all
  · have hasm := assemble_eq env format args ((List.range (len + 1)).map env.heap_garbage)
      (utc_time_field env) (logmsg_level_to_string level) (hostname_field env)
      env.program_invocation_short_name (pid_tid_field env) (message_field env format args)
      (message_block env format args).2 (by rw [← hel]; simp) hsz hi hg.2.2.2.2.1
      hg.2.2.2.2.2
    rw [hrefine] at hasm
    simp only [Option.map_eq_some', Prod.mk.injEq] at hasm
    obtain ⟨buf, hrun, hbuf, -⟩ := hasm
    refine ⟨buf, hrun, ?_⟩
    rw [hbuf, List.length_append, List.length_drop, List.length_map, List.length_range, ← hel]
    omega

theorem assembly_stores_in_bounds_witness :
    (∀ st ∈ entry_stores (utc_time_field failing_env) (logmsg_level_to_string LOGMSG_LEVEL_INFO)
        (hostname_field failing_env) failing_env.program_invocation_short_name
        (pid_tid_field failing_env) (message_field failing_env "%s %f".toList []),
      st.1 + st.2.length ≤ 133 + 1) ∧
    (∃ buf : List Char,
      run_stores ((List.range (133 + 1)).map failing_env.heap_garbage)
        (entry_stores (utc_time_field failing_env) (logmsg_level_to_string LOGMSG_LEVEL_INFO)
          (hostname_field failing_env) failing_env.program_invocation_short_name
          (pid_tid_field failing_env) (message_field failing_env "%s %f".toList [])) =
        some buf ∧
      buf.length = 133 + 1) :=
  ⟨(assembly_stores_in_bounds failing_env LOGMSG_LEVEL_INFO "%s %f".toList [] 133
      (by decide) (by decide) (by decide) (by decide)).2.1,
    (assembly_stores_in_bounds failing_env LOGMSG_LEVEL_INFO "%s %f".toList [] 133
      (by decide) (by decide) (by decide) (by decide)).2.2.2⟩

end Logmsg
